import Mathlib

/-!
Verification development for the VoH grants ingestion pipeline.

The definitions below are a shallow embedding of the JavaScript/TypeScript
sources of the repository:
  * `grants-web-app/server/grantness.js` (content classifier, scoring,
    selection, dedup helpers);
  * `grants-scraper/src/index.ts` (paginated fetch loop `fetchAll` and the
    `pull` orchestration);
  * `grants-scraper/src/transform/mapOpportunity.ts` and
    `grants-scraper/src/transform/schema.ts` (canonicalization).

Modelling conventions:
  * JavaScript numbers that only ever hold exact decimal values are embedded
    as `ℚ`; `Number.prototype.toFixed(2)` is embedded as exact rounding to
    two decimals (half away from zero on the positive values that occur).
  * Timestamps are rationals counting days since the Unix epoch; the runtime
    is assumed to be in the UTC timezone (the classifier compares dates it
    itself serialized as UTC dates).
  * Strings are ASCII; the JavaScript regex character class `\s` is modelled
    by the ASCII whitespace characters, `\w` by `[A-Za-z0-9_]`.
  * Fallible JavaScript code (`throw`) is embedded with `Except`.
-/

namespace VoH

/-- Whitespace characters recognised by the JavaScript regex class `\s`
(ASCII subset). -/
def isWs (c : Char) : Bool := c = ' ' || c = '\t' || c = '\n' || c = '\r'

/-- Word characters of the JavaScript regex class `\w`. -/
def isWordChar (c : Char) : Bool :=
  ('a' ≤ c && c ≤ 'z') || ('A' ≤ c && c ≤ 'Z') || ('0' ≤ c && c ≤ '9') || c = '_'

/-- Decimal digit test, the regex class `\d`. -/
def isDigitChar (c : Char) : Bool := '0' ≤ c && c ≤ '9'

/-- ASCII lower-casing of one character, as `String.prototype.toLowerCase`
acts on the ASCII inputs of this repository. -/
def lowerChar (c : Char) : Char :=
  if 'A' ≤ c && c ≤ 'Z' then Char.ofNat (c.toNat + 32) else c

/-- ASCII lower-casing of a character list. -/
def lowerL (s : List Char) : List Char := s.map lowerChar

/-- ASCII lower-casing of a string (`toLowerCase`). -/
def lower (s : String) : String := ⟨lowerL s.data⟩

/-- One pass of `String.prototype.replace(/\s+/g, ' ')`: every maximal run of
whitespace becomes a single space.  The flag records whether the previous
character was part of a whitespace run. -/
def collapseWs : List Char → Bool → List Char
  | [], _ => []
  | c :: cs, prevWs =>
    if isWs c then
      if prevWs then collapseWs cs true else ' ' :: collapseWs cs true
    else
      c :: collapseWs cs false

/-- Drop spaces at both ends of a character list (`String.prototype.trim`
after whitespace collapsing, where only `' '` can remain). -/
def trimSpacesL (s : List Char) : List Char :=
  ((s.dropWhile (· = ' ')).reverse.dropWhile (· = ' ')).reverse

/-- grantness.js `normalizeText`: collapse whitespace runs to one space and
trim.  (`String(value || '')` is the identity on the string inputs used
here.) -/
def normalizeText (value : String) : String :=
  ⟨trimSpacesL (collapseWs value.data false)⟩

/-- JavaScript `String.prototype.trim` (on collapsed ASCII text). -/
def trimS (s : String) : String := ⟨trimSpacesL s.data⟩

/-- JavaScript `a || b` on strings: `a` unless it is empty. -/
def jsOrS (a b : String) : String := if a = "" then b else a

/-- Substring containment on character lists
(`String.prototype.includes`). -/
def containsL : List Char → List Char → Bool
  | hay, needle =>
    if needle.isPrefixOf hay then true
    else
      match hay with
      | [] => false
      | _ :: t => containsL t needle

/-- `String.prototype.includes`. -/
def containsS (hay needle : String) : Bool := containsL hay.data needle.data

/-- `String.prototype.endsWith`. -/
def endsWithS (s suffix : String) : Bool := suffix.data.isSuffixOf s.data

/-- Split on a one-character separator (every separator occurrence in the
sources is a single character), with the shared JavaScript `split` /
`String.splitOn` semantics: `"a//b" ↦ ["a", "", "b"]`. -/
def splitOnCAux (sep : Char) : List Char → List Char → List (List Char)
  | [], cur => [cur.reverse]
  | c :: t, cur =>
    if c = sep then cur.reverse :: splitOnCAux sep t []
    else splitOnCAux sep t (c :: cur)

/-- String wrapper for `splitOnCAux`. -/
def splitOnC (sep : Char) (s : String) : List String :=
  (splitOnCAux sep s.data []).map (⟨·⟩)

/-- Scan a string left to right, applying a local matcher that sees the
previous character (for word boundaries) and the remaining tail.  Returns
true if the matcher succeeds at some position, trying leftmost positions
first — the search order of a JavaScript regex `test`. -/
def scanB (f : Option Char → List Char → Bool) : Option Char → List Char → Bool
  | prev, [] => f prev []
  | prev, c :: t => f prev (c :: t) || scanB f (some c) t

/-- Leftmost-first scan returning the first successful local parse, the
search strategy of `String.prototype.match` for the patterns embedded
below. -/
def scanFirst {α : Type} (f : List Char → Option α) : List Char → Option α
  | [] => f []
  | c :: t =>
    match f (c :: t) with
    | some a => some a
    | none => scanFirst f t

/-- Word boundary `\b` between the previous character and a word
character. -/
def boundaryBefore (prev : Option Char) : Bool :=
  match prev with
  | none => true
  | some p => !isWordChar p

/-- Word boundary `\b` after a word character: the next character (head of
the remaining tail) must be absent or a non-word character. -/
def boundaryAfter (rest : List Char) : Bool :=
  match rest with
  | [] => true
  | c :: _ => !isWordChar c

/-- Test for `\bw\b` where the literal `w` begins and ends with a word
character (all the keyword literals of grantness.js do).  Both sides are
expected already lower-cased. -/
def hasBoundedWordL (w : List Char) (s : List Char) : Bool :=
  scanB (fun prev hay =>
    boundaryBefore prev && w.isPrefixOf hay && boundaryAfter (hay.drop w.length))
    none s

/-- Case-insensitive `\bw\b` on strings. -/
def hasBoundedWord (w : String) (s : String) : Bool :=
  hasBoundedWordL (lowerL w.data) (lowerL s.data)

/-- Case-insensitive `\bw₁\b|…|\bwₙ\b`. -/
def hasBoundedWordAny (ws : List String) (s : String) : Bool :=
  ws.any (fun w => hasBoundedWord w s)

/-! ### Calendar dates

JavaScript `Date` values appearing in the pipeline always denote UTC
midnights of calendar dates (the classifier serializes every parsed date as
`toISOString().split('T')[0]` before reuse).  A date is embedded as its
civil triple; `toDays` is the standard civil-to-epoch-day conversion, so
`86 400 000 · toDays d` is the `getTime()` value of the corresponding
`Date`. -/

/-- A calendar date (proleptic Gregorian). -/
structure Civil where
  year : ℤ
  month : ℕ
  day : ℕ
  deriving DecidableEq, Repr

/-- Gregorian leap-year test. -/
def isLeap (y : ℤ) : Bool := y % 4 = 0 && (y % 100 ≠ 0 || y % 400 = 0)

/-- Number of days in a month. -/
def daysInMonth (y : ℤ) (m : ℕ) : ℕ :=
  if m = 2 then (if isLeap y then 29 else 28)
  else if m = 4 || m = 6 || m = 9 || m = 11 then 30
  else 31

/-- Whether the triple denotes an actual calendar date. -/
def Civil.valid (d : Civil) : Bool :=
  1 ≤ d.month && d.month ≤ 12 && 1 ≤ d.day && d.day ≤ daysInMonth d.year d.month

/-- Days since 1970-01-01 of a civil date (Howard Hinnant's
`days_from_civil`); the `getTime()` of the UTC midnight divided by
86 400 000. -/
def Civil.toDays (d : Civil) : ℤ :=
  let y : ℤ := if d.month ≤ 2 then d.year - 1 else d.year
  let era : ℤ := Int.fdiv y 400
  let yoe : ℤ := y - era * 400
  let mp : ℤ := Int.emod ((d.month : ℤ) + 9) 12
  let doy : ℤ := (153 * mp + 2) / 5 + (d.day : ℤ) - 1
  let doe : ℤ := yoe * 365 + yoe / 4 - yoe / 100 + doy
  era * 146097 + doe - 719468

/-- Left-pad a numeral with zeroes (`String.prototype.padStart(n, '0')`). -/
def padZero (n : ℕ) (s : String) : String :=
  ⟨List.replicate (n - s.data.length) '0' ++ s.data⟩

/-- Render a civil date the way `toISOString().split('T')[0]` does
(years of this repository are four-digit). -/
def Civil.iso (d : Civil) : String :=
  padZero 4 (toString d.year) ++ "-" ++ padZero 2 (toString d.month) ++ "-"
    ++ padZero 2 (toString d.day)

/-- Full month names, lower-cased, indexed by month number. -/
def monthNames : List (String × ℕ) :=
  [("january", 1), ("february", 2), ("march", 3), ("april", 4), ("may", 5),
   ("june", 6), ("july", 7), ("august", 8), ("september", 9), ("october", 10),
   ("november", 11), ("december", 12)]

/-- Month-name lookup of the ECMAScript legacy date parser: a word of at
least three letters that is a prefix of a full month name. -/
def monthFromName (w : List Char) : Option ℕ :=
  if w.length < 3 then none
  else
    (monthNames.find? (fun p => w.isPrefixOf p.1.data)).map (·.2)

/-- Two-digit-year widening of the ECMAScript legacy date parser:
`yy < 50` means `20yy`, `50 ≤ yy < 100` means `19yy`. -/
def widenYear (y : ℕ) : ℤ :=
  if y < 50 then 2000 + y else if y < 100 then 1900 + y else (y : ℤ)

/-! ### grantness.js constants -/

/-- grantness.js `TOPIC_KEYWORDS`. -/
def TOPIC_KEYWORDS : List String :=
  ["human trafficking", "sex trafficking", "labor trafficking",
   "victim services", "survivor services", "victim assistance",
   "domestic violence", "sexual assault", "sexual violence",
   "intimate partner violence", "family violence", "gender-based violence",
   "dating violence", "women", "shelter", "housing", "rehousing",
   "transitional housing", "safe housing", "emergency shelter", "legal aid",
   "legal services", "case management", "mental health", "behavioral health",
   "trauma", "trauma-informed", "crisis services", "crisis intervention",
   "emergency services", "hotline", "advocacy", "counseling", "workforce",
   "nonprofit capacity", "community services", "social services", "vawa",
   "fvpsa", "voca", "crime victim", "violent crime"]

/-- grantness.js `BLOCKLIST_SEGMENTS`. -/
def BLOCKLIST_SEGMENTS : List String :=
  ["news", "press", "blog", "story", "media", "opinion", "insights"]

/-- grantness.js `TRIBAL_BLOCKLIST`. -/
def TRIBAL_BLOCKLIST : List String :=
  ["tribal", "native american", "alaska native", "indigenous", "indian tribe",
   "federally recognized tribe", "tribal government", "tribal nation"]

/-- grantness.js tribal-only indicator phrases (local list in
`hasTribalSpecificContent`). -/
def tribalOnlyIndicators : List String :=
  ["tribal government only", "tribal only", "only tribal", "exclusively tribal",
   "tribal nations only", "federally recognized tribes only",
   "for tribal governments", "eligible: tribal", "eligibility: tribal"]

/-- grantness.js `GENERIC_TITLE_EXACT_MATCHES`. -/
def GENERIC_TITLE_EXACT_MATCHES : List String :=
  ["how to apply", "apply for funding", "grant programs",
   "funding opportunities", "funding opportunity", "apply for grants",
   "grant funding"]

/-- grantness.js `GENERIC_URL_PATTERNS`. -/
def GENERIC_URL_PATTERNS : List String :=
  ["/how-to-apply", "/how-to", "/funding-opportunities", "/grant-programs",
   "/apply", "/grants/apply", "/opportunities"]

/-- grantness.js `ALLOWED_DOMAIN_SUFFIXES`. -/
def ALLOWED_DOMAIN_SUFFIXES : List String := [".gov", ".mil", ".us"]

/-- grantness.js `TRUSTED_HOSTS`. -/
def TRUSTED_HOSTS : List String :=
  ["coj.net", "jacksonville.gov", "floridahealth.gov", "myflfamilies.com",
   "dcf.fl.gov", "ojp.gov", "hud.gov", "hhs.gov"]

/-- grantness.js `MIN_FEATURE_MATCHES`. -/
def MIN_FEATURE_MATCHES : ℕ := 2

/-! ### grantness.js basic predicates and scoring -/

/-- grantness.js `normalizeKey`. -/
def normalizeKey (title agency deadline : String) : String :=
  lower (normalizeText title) ++ "|" ++ lower (normalizeText agency) ++ "|"
    ++ lower deadline

/-- grantness.js `hasBlocklistedSignal`: whitelists OVW media URLs, then
looks for a blocklisted segment in the lower-cased concatenation of url,
title and summary. -/
def hasBlocklistedSignal (url title summary : String) : Bool :=
  if url ≠ "" && containsS url "justice.gov/ovw/media/" then false
  else
    let haystack := lower (url ++ " " ++ title ++ " " ++ summary)
    BLOCKLIST_SEGMENTS.any (fun seg => containsS haystack seg)

/-- grantness.js `isAllowedDomain`. -/
def isAllowedDomain (hostname : String) : Bool :=
  if hostname = "" then false
  else
    let l := lower hostname
    TRUSTED_HOSTS.contains l || ALLOWED_DOMAIN_SUFFIXES.any (fun suf => endsWithS l suf)

/-- grantness.js `detectTopicHits`: the topic keywords occurring in the
lower-cased text, in vocabulary order (the keywords are pairwise distinct,
so the de-duplication in the source is the identity). -/
def detectTopicHits (text : String) : List String :=
  let haystack := lower text
  TOPIC_KEYWORDS.filter (fun kw => containsS haystack kw)

/-- grantness.js `computeDomainTrust`. -/
def computeDomainTrust (hostname : String) : ℚ :=
  if hostname = "" then 0
  else
    let l := lower hostname
    if endsWithS l ".gov" then 1
    else if endsWithS l ".us" || endsWithS l ".mil" then 9 / 10
    else if TRUSTED_HOSTS.contains l then 8 / 10
    else 1 / 2

/-- grantness.js `computeDeadlineScore`.  The string argument of the source
is embedded as the date it parses to: `none` covers both the empty string
and an unparsable one (whose `diffDays` is `NaN`), which the source sends
to the same `0.3`.  `now` is the clock reading in days since the epoch;
`diffDays = (due.getTime() - now.getTime()) / 86 400 000` is then
`toDays d - now`. -/
def computeDeadlineScore (deadline : Option Civil) (now : ℚ) : ℚ :=
  match deadline with
  | none => 3 / 10
  | some d =>
    let diffDays : ℚ := (d.toDays : ℚ) - now
    if diffDays ≤ 0 then 2 / 10
    else if 180 ≤ diffDays then 4 / 10
    else max (2 / 10) (1 - diffDays / 180)

/-- Exact rounding to two decimals, the effect of
`Number(x.toFixed(2))` on the nonnegative scores of this pipeline
(half rounds away from zero). -/
def round2 (q : ℚ) : ℚ := (⌊q * 100 + 1 / 2⌋ : ℚ) / 100

/-- grantness.js `scoreOpportunity`. -/
def scoreOpportunity (topicHits : List String) (domainTrust : ℚ)
    (deadline : Option Civil) (now : ℚ) : ℚ :=
  let topicScore : ℚ := min 1 ((topicHits.length : ℚ) / 3)
  let deadlineScore := computeDeadlineScore deadline now
  round2 (topicScore * (6 / 10) + domainTrust * (2 / 10) + deadlineScore * (2 / 10))

/-- grantness.js `isExpiredDeadline`: compare date-only, the deadline
against the start of the current day (`now.setHours(0,0,0,0)` under the
UTC-runtime convention is `⌊now⌋`; the deadline is already a midnight). -/
def isExpiredDeadline (deadline : Option Civil) (now : ℚ) : Bool :=
  match deadline with
  | none => false
  | some d => decide ((d.toDays : ℚ) < (⌊now⌋ : ℤ))

/-- grantness.js `splitLocation`. -/
def splitLocation (locationHint : String) : String × String :=
  if locationHint = "" then ("", "")
  else
    let parts := splitOnC ',' locationHint
    match parts with
    | p0 :: p1 :: _ => (normalizeText p0, normalizeText p1)
    | _ => (normalizeText locationHint, "")

/-- grantness.js `createStableId` computes the first twelve hex digits of
the SHA-1 of the url via the external `crypto` library; it is modelled as
an abstract deterministic fingerprint of the url (its value is never
inspected by the pipeline). -/
def createStableId (url : String) : String := url

/-! ### grantness.js regex patterns

Each definition embeds one regular expression of the source, with its
backtracking behaviour worked out on the whitespace-collapsed ASCII text
the classifier feeds it.  All matchers receive lower-cased text (the
patterns carry the `i` flag), except where noted. -/

/-- Lower-case letter test (inputs are lower-cased before matching). -/
def isAlphaChar (c : Char) : Bool := 'a' ≤ c && c ≤ 'z'

/-- Scan every suffix of the text for a local condition. -/
def scanTail (f : List Char → Bool) : List Char → Bool
  | [] => f []
  | c :: t => f (c :: t) || scanTail f t

/-- Scan with word-boundary tracking for `\b(w₁|…|wₙ)` without a trailing
boundary: some alternative is a prefix of a suffix whose previous character
is a non-word character.  `prev` seeds the character preceding the scanned
text. -/
def hasPrefixWordScan (ws : List String) (prev : Option Char) (s : List Char) : Bool :=
  scanB (fun p r => boundaryBefore p && ws.any (fun w => w.data.isPrefixOf r)) prev s

/-- `FEATURE_PATTERNS.apply`:
`\bapply\b|\bapplication\b|\bsubmit\b|\bsubmission\b`. -/
def featApply (t : List Char) : Bool :=
  ["apply", "application", "submit", "submission"].any
    (fun w => hasBoundedWordL w.data t)

/-- `FEATURE_PATTERNS.eligibility`:
`\beligibility\b|\beligible\b|\bwho can apply\b|\bqualif(?:y|ied|ications)\b`. -/
def featEligibility (t : List Char) : Bool :=
  ["eligibility", "eligible", "who can apply", "qualify", "qualified",
   "qualifications"].any (fun w => hasBoundedWordL w.data t)

/-- `FEATURE_PATTERNS.deadline`: `\bdeadline\b|\bclosing date\b|\bdue date\b|
\bsubmission date\b|\bapplication period\b`. -/
def featDeadline (t : List Char) : Bool :=
  ["deadline", "closing date", "due date", "submission date",
   "application period"].any (fun w => hasBoundedWordL w.data t)

/-- The `\bup to \$\d` alternative of `FEATURE_PATTERNS.award`. -/
def upToDollarTest (t : List Char) : Bool :=
  scanB (fun prev hay =>
    boundaryBefore prev && "up to $".data.isPrefixOf hay
      && (match (hay.drop 7).head? with
          | some c => isDigitChar c
          | none => false))
    none t

/-- `FEATURE_PATTERNS.award`: `\baward\b|\bceiling\b|\bfloor\b|
\bfunding (?:amount|level|range)\b|\bgrant (?:amount|size)\b|\bup to \$\d`. -/
def featAward (t : List Char) : Bool :=
  ["award", "ceiling", "floor", "funding amount", "funding level",
   "funding range", "grant amount", "grant size"].any
    (fun w => hasBoundedWordL w.data t)
  || upToDollarTest t

/-- The `\bCF(?:D)?A\s*#?\s*\d+` alternative of `FEATURE_PATTERNS.cfda`:
after `cfda` or `cfa` (with a leading boundary) come optional whitespace,
an optional `#`, optional whitespace and a digit. -/
def cfaNumTest (t : List Char) : Bool :=
  scanB (fun prev hay =>
    boundaryBefore prev &&
      (["cfda", "cfa"].any (fun w =>
        w.data.isPrefixOf hay &&
          (let r1 := (hay.drop w.length).dropWhile isWs
           let r2 := if r1.head? = some '#' then r1.drop 1 else r1
           match (r2.dropWhile isWs).head? with
           | some c => isDigitChar c
           | none => false))))
    none t

/-- `FEATURE_PATTERNS.cfda`: `\bCFDA\b|\bALN\b|\bCF(?:D)?A\s*#?\s*\d+`. -/
def featCfda (t : List Char) : Bool :=
  ["cfda", "aln"].any (fun w => hasBoundedWordL w.data t) || cfaNumTest t

/-- `FEATURE_PATTERNS.opportunityNumber`:
`\b(opportunity|solicitation|announcement|funding|grant)\s+(number|no\.?|#|id)`
— no boundary closes the second token, so a prefix suffices. -/
def featOppNum (t : List Char) : Bool :=
  scanB (fun prev hay =>
    boundaryBefore prev &&
      (["opportunity", "solicitation", "announcement", "funding", "grant"].any
        (fun w1 =>
          w1.data.isPrefixOf hay &&
            (let r := hay.drop w1.length
             let ws := r.takeWhile isWs
             !ws.isEmpty &&
               ["number", "no", "#", "id"].any
                 (fun w2 => w2.data.isPrefixOf (r.drop ws.length))))))
    none t

/-- `FEATURE_PATTERNS.forms`: `\bapplication (?:package|forms|materials)\b|
\bdownload (?:the )?forms?\b|\bapply online\b|\bapplication portal\b`. -/
def featForms (t : List Char) : Bool :=
  ["application package", "application forms", "application materials",
   "download form", "download forms", "download the form",
   "download the forms", "apply online", "application portal"].any
    (fun w => hasBoundedWordL w.data t)

/-- The target half of `FEATURE_PATTERNS.contact`: `(?:@|email|phone|call)\b`
— an `@` is only closed by a following word character; the words carry no
leading boundary (so `voicemail` contains a match for `email`). -/
def contactTargetAt (r : List Char) : Bool :=
  (r.head? = some '@' &&
    (match (r.drop 1).head? with
     | some c => isWordChar c
     | none => false))
  || ["email", "phone", "call"].any
      (fun w => w.data.isPrefixOf r && boundaryAfter (r.drop w.length))

/-- `FEATURE_PATTERNS.contact`:
`\b(contact|questions|inquiries).*?(?:@|email|phone|call)\b|\bpoint of contact\b`. -/
def featContact (t : List Char) : Bool :=
  scanB (fun prev hay =>
    boundaryBefore prev &&
      (["contact", "questions", "inquiries"].any
        (fun w1 => w1.data.isPrefixOf hay && scanTail contactTargetAt (hay.drop w1.length))))
    none t
  || hasBoundedWordL "point of contact".data t

/-- `FEATURE_PATTERNS.guidelines`:
`\bguidelines\b|\brequirements\b|\binstructions\b|\bprogram guide\b`. -/
def featGuidelines (t : List Char) : Bool :=
  ["guidelines", "requirements", "instructions", "program guide"].any
    (fun w => hasBoundedWordL w.data t)

/-- `FEATURE_PATTERNS.program`: `\bprogram\b|\binitiative\b|\bproject\b`. -/
def featProgram (t : List Char) : Bool :=
  ["program", "initiative", "project"].any (fun w => hasBoundedWordL w.data t)

/-- grantness.js `FEATURE_PATTERNS`, in object insertion order. -/
def FEATURE_PATTERNS : List (String × (List Char → Bool)) :=
  [("apply", featApply), ("eligibility", featEligibility),
   ("deadline", featDeadline), ("award", featAward), ("cfda", featCfda),
   ("opportunityNumber", featOppNum), ("forms", featForms),
   ("contact", featContact), ("guidelines", featGuidelines),
   ("program", featProgram)]

/-- grantness.js `getGrantFeatureHits`: the names of the feature patterns
matching the text, in pattern order. -/
def getGrantFeatureHits (text : String) : List String :=
  let t := lowerL text.data
  (FEATURE_PATTERNS.filter (fun p => p.2 t)).map (·.1)

/-! ### grantness.js `parseDeadline`

The source matches
`/(deadline|due|closing date)[:\s]+([A-Za-z]{3,9}\s+\d{1,2},\s+\d{4}|\d{1,2}\/\d{1,2}\/\d{2,4}|\d{4}-\d{2}-\d{2})/i`
against the text, feeds the second capture to `Date.parse` and, when that
succeeds, serializes `toISOString().split('T')[0]` — under the UTC-runtime
convention, the parsed calendar date itself.  An unparsable first match
yields `''` without further searching. -/

/-- Syntactic date token captured by the deadline regex. -/
inductive DTok where
  | named (name : List Char) (day : ℕ) (year : ℕ)
  | slash (m d y : ℕ)
  | iso (y m d : ℕ)
  deriving DecidableEq, Repr

/-- Digits of a numeral run to a number. -/
def digitsToNat (ds : List Char) : ℕ :=
  ds.foldl (fun acc c => acc * 10 + (c.toNat - 48)) 0

/-- Match `[A-Za-z]{3,9}\s+\d{1,2},\s+\d{4}` at the head of (lower-cased)
text: a maximal letter run of three to nine characters (a longer run leaves
a letter where whitespace is required, and the quantifier cannot shorten a
run), whitespace, a one-or-two digit day directly followed by a comma,
whitespace, and four digits (a longer digit run simply loses its tail). -/
def namedDateAt (s : List Char) : Option DTok :=
  let letters := s.takeWhile isAlphaChar
  if 3 ≤ letters.length && letters.length ≤ 9 then
    let r := s.drop letters.length
    let ws := r.takeWhile isWs
    if ws.isEmpty then none
    else
      let r2 := r.drop ws.length
      let digits := r2.takeWhile isDigitChar
      let afterDay : Option (ℕ × List Char) :=
        if 2 ≤ digits.length && (r2.drop 2).head? = some ',' then
          some (digitsToNat (r2.take 2), r2.drop 3)
        else if 1 ≤ digits.length && (r2.drop 1).head? = some ',' then
          some (digitsToNat (r2.take 1), r2.drop 2)
        else none
      match afterDay with
      | none => none
      | some (day, r3) =>
        let ws2 := r3.takeWhile isWs
        if ws2.isEmpty then none
        else
          let r4 := r3.drop ws2.length
          let year := r4.takeWhile isDigitChar
          if 4 ≤ year.length then some (.named letters day (digitsToNat (year.take 4)))
          else none
  else none

/-- Match `\d{1,2}\/\d{1,2}\/\d{2,4}` at the head of the text. -/
def slashDateAt (s : List Char) : Option DTok :=
  let d1 := s.takeWhile isDigitChar
  if 1 ≤ d1.length && d1.length ≤ 2 && (s.drop d1.length).head? = some '/' then
    let r := s.drop (d1.length + 1)
    let d2 := r.takeWhile isDigitChar
    if 1 ≤ d2.length && d2.length ≤ 2 && (r.drop d2.length).head? = some '/' then
      let r2 := r.drop (d2.length + 1)
      let d3 := r2.takeWhile isDigitChar
      if 2 ≤ d3.length then
        some (.slash (digitsToNat d1) (digitsToNat d2) (digitsToNat (d3.take 4)))
      else none
    else none
  else none

/-- Match `\d{4}-\d{2}-\d{2}` at the head of the text (exact counts: a
longer digit run where an exact-count group ends leaves a digit where `-`
is required; the final group may truncate a longer run). -/
def isoDateAt (s : List Char) : Option DTok :=
  let d1 := s.takeWhile isDigitChar
  if d1.length = 4 && (s.drop 4).head? = some '-' then
    let r := s.drop 5
    let d2 := r.takeWhile isDigitChar
    if d2.length = 2 && (r.drop 2).head? = some '-' then
      let r2 := r.drop 3
      let d3 := r2.takeWhile isDigitChar
      if 2 ≤ d3.length then
        some (.iso (digitsToNat d1) (digitsToNat d2) (digitsToNat (r2.take 2)))
      else none
    else none
  else none

/-- The date alternation of the deadline regex, in source order. -/
def dateTokenAt (s : List Char) : Option DTok :=
  match namedDateAt s with
  | some tok => some tok
  | none =>
    match slashDateAt s with
    | some tok => some tok
    | none => isoDateAt s

/-- One position of the deadline regex: a trigger word (`deadline`, `due`
or `closing date` — pairwise non-overlapping at a fixed position), one or
more `[:\s]` separators, then a date token. -/
def deadlinePhraseAt (s : List Char) : Option DTok :=
  match ["deadline", "due", "closing date"].find? (fun w => w.data.isPrefixOf s) with
  | none => none
  | some w =>
    let r := s.drop w.data.length
    let seps := r.takeWhile (fun c => c = ':' || isWs c)
    if seps.isEmpty then none else dateTokenAt (r.drop seps.length)

/-- ECMAScript semantics of `Date.parse` on a captured token: month names
resolve by ≥3-letter prefix of a full name, two-digit years widen, and the
triple must be an actual calendar date. -/
def civilOfTok : DTok → Option Civil
  | .named name day year =>
    match monthFromName name with
    | none => none
    | some m =>
      let c : Civil := ⟨(year : ℤ), m, day⟩
      if c.valid then some c else none
  | .slash m d y =>
    let c : Civil := ⟨widenYear y, m, d⟩
    if c.valid then some c else none
  | .iso y m d =>
    let c : Civil := ⟨(y : ℤ), m, d⟩
    if c.valid then some c else none

/-- grantness.js `parseDeadline`: leftmost regex match, then `Date.parse`;
`none` embeds the empty-string result. -/
def parseDeadline (text : String) : Option Civil :=
  match scanFirst deadlinePhraseAt (lowerL text.data) with
  | none => none
  | some tok => civilOfTok tok

/-! ### grantness.js `extractAwardAmount` -/

/-- Characters of the regex class `[\d,.]`. -/
def isAmountChar (c : Char) : Bool := isDigitChar c || c = ',' || c = '.'

/-- Match `\$\s?([\d,.]+)` at the head of the text and return the capture. -/
def amountAt (s : List Char) : Option (List Char) :=
  if s.head? = some '$' then
    let r := s.drop 1
    let r2 := match r.head? with
      | some c => if isWs c then r.drop 1 else r
      | none => r
    let run := r2.takeWhile isAmountChar
    if run.isEmpty then none else some run
  else none

/-- JavaScript `Number(s)` after `s.replace(/,/g, '')` on a `[\d.]*`
string: the empty string is `0`, two dots or a lone dot are `NaN`
(embedded as `none`), otherwise the decimal value. -/
def jsNumberOfRun (run : List Char) : Option ℚ :=
  let t := run.filter (fun c => c ≠ ',')
  if t.isEmpty then some 0
  else
    let dots := (t.filter (fun c => c = '.')).length
    if 2 ≤ dots then none
    else if t.all (fun c => c = '.') then none
    else
      let ip := t.takeWhile (fun c => c ≠ '.')
      let fp := t.drop (ip.length + 1)
      some ((digitsToNat ip : ℚ) + (digitsToNat fp : ℚ) / (10 : ℚ) ^ fp.length)

/-- grantness.js `extractAwardAmount`: first `\$\s?([\d,.]+)` match, commas
stripped, `Number(...)`; a `NaN` first match yields `''` (embedded as
`none`) without further searching. -/
def extractAwardAmount (text : String) : Option ℚ :=
  match scanFirst amountAt text.data with
  | none => none
  | some run => jsNumberOfRun run

/-! ### grantness.js `extractAgency` -/

/-- Characters of the capture class `[A-Za-z0-9 ,&.'-]` (both cases: the
capture is taken from the original text). -/
def isAgencyChar (c : Char) : Bool :=
  isAlphaChar (lowerChar c) || isDigitChar c || c = ' ' || c = ',' || c = '&'
    || c = '.' || c = '\'' || c = '-'

/-- Match `Agency:\s*([A-Za-z0-9 ,&.'-]+)` at the head of the text
(case-insensitive trigger, capture from the original text).  The greedy
`\s*` backtracks one space when the character after the whitespace run is
not in the capture class but a space is. -/
def agencyAt (s : List Char) : Option (List Char) :=
  if "agency:".data.isPrefixOf (lowerL s) then
    let r := s.drop 7
    let ws := r.takeWhile isWs
    let cap := (r.drop ws.length).takeWhile isAgencyChar
    if !cap.isEmpty then some cap
    else if 0 < ws.length && (r.drop (ws.length - 1)).head? = some ' ' then
      some ((r.drop (ws.length - 1)).takeWhile isAgencyChar)
    else none
  else none

/-- grantness.js `extractAgency`: `og:site_name` meta, then an
agency/Organization meta, then the sibling of an `Agency` heading (all
modelled as extraction fields of the page), then the `Agency:` regex over
the body text, then the hostname. -/
def extractAgency (ogSiteName agencyMeta agencyHeading : String)
    (hostname text : String) : String :=
  if ogSiteName ≠ "" then normalizeText ogSiteName
  else if agencyMeta ≠ "" then normalizeText agencyMeta
  else if agencyHeading ≠ "" then normalizeText agencyHeading
  else
    match scanFirst agencyAt text.data with
    | some cap => normalizeText ⟨cap⟩
    | none => hostname

/-! ### grantness.js filter stages -/

/-- grantness.js `hasTribalSpecificContent`: whitelists the OVW NOFO list
page, then looks for tribal-only phrasing or a tribal mention without
co-mention of another eligible entity type, in title and summary only. -/
def hasTribalSpecificContent (title summary : String) (_text url : String) : Bool :=
  if url ≠ "" && containsS url "justice.gov/ovw/open-notices-of-funding-opportunity"
  then false
  else
    let haystack := lower (title ++ " " ++ summary)
    if tribalOnlyIndicators.any (fun term => containsS haystack term) then true
    else if TRIBAL_BLOCKLIST.any (fun term => containsS haystack term) then
      !hasBoundedWordAny
        ["state", "local", "county", "city", "municipal", "nonprofit", "ngo",
         "community", "organization", "faith-based"] haystack
    else false

/-- JavaScript `String.prototype.split(/\s+/)`: pieces between whitespace
runs, with empty pieces at a leading or trailing run. -/
def splitWsAux : List Char → List Char → List (List Char)
  | [], cur => [cur.reverse]
  | c :: t, cur =>
    if isWs c then cur.reverse :: splitWsAux (t.dropWhile isWs) []
    else splitWsAux t (c :: cur)
termination_by s _ => s.length
decreasing_by
  · have := (List.dropWhile_sublist (l := t) isWs).length_le
    simp only [List.length_cons]
    omega
  · simp

/-- `split(/\s+/)` on strings. -/
def splitWsJS (s : String) : List String := (splitWsAux s.data []).map (⟨·⟩)

/-- The generic-word vocabulary of `isGenericLandingPage`. -/
def genericWords : List String :=
  ["grant", "grants", "funding", "apply", "application", "opportunity",
   "opportunities", "program", "programs"]

/-- The `/[/-](20\d{2}|FY|RFA|FOA|NOFO|PA|RFP)-/i` test of
`isGenericLandingPage`. -/
def specificIdTest (url : String) : Bool :=
  scanTail (fun hay =>
    (hay.head? = some '/' || hay.head? = some '-') &&
      (let r := hay.drop 1
       ("20".data.isPrefixOf r && ((r.drop 2).take 2).length = 2
          && ((r.drop 2).take 2).all isDigitChar && (r.drop 4).head? = some '-')
       || ["fy", "rfa", "foa", "nofo", "pa", "rfp"].any
            (fun w => w.data.isPrefixOf r && (r.drop w.length).head? = some '-')))
    (lowerL url.data)

/-- The `/\d{6,}/` test of `isGenericLandingPage`. -/
def sixDigitsTest (url : String) : Bool :=
  scanTail (fun hay => (hay.take 6).length = 6 && (hay.take 6).all isDigitChar)
    url.data

/-- grantness.js `isGenericLandingPage`.  `hostname` models
`new URL(url).hostname.toLowerCase()` of the source (every call site passes
a non-empty, parseable url). -/
def isGenericLandingPage (title url text : String) (hostname : String) : Bool :=
  let titleLower := trimS (lower title)
  if GENERIC_TITLE_EXACT_MATCHES.contains titleLower then true
  else
    let shortGeneric :=
      if title.data.length < 40 then
        let words := splitWsJS (lower title)
        (words.all (fun w => genericWords.contains w || w.data.length ≤ 3))
          && words.length ≤ 4
      else false
    if shortGeneric then true
    else
      let urlLower := lower url
      let hasGenericPattern := GENERIC_URL_PATTERNS.any
        (fun pat => containsS urlLower pat)
      let hasSpecificId := specificIdTest url || sixDigitsTest url
      if hasGenericPattern && !hasSpecificId then true
      else
        let isGovSite := endsWithS hostname ".gov" || endsWithS hostname ".fl.us"
          || endsWithS hostname ".mil"
        if isGovSite then decide (text.data.length < 300)
        else decide (text.data.length < 500)

/-- Consume exactly `n` digits. -/
def takeNDigits : ℕ → List Char → Option (List Char)
  | 0, s => some s
  | _ + 1, [] => none
  | n + 1, c :: t => if isDigitChar c then takeNDigits n t else none

/-- Consume an optional `[-.]` separator. -/
def optSep (s : List Char) : List Char :=
  match s.head? with
  | some '-' => s.drop 1
  | some '.' => s.drop 1
  | _ => s

/-- The `/\d{3}[-.]?\d{3}[-.]?\d{4}/` phone-number test of
`hasMinimumSpecificity` (case plays no role). -/
def phoneTest (s : List Char) : Bool :=
  scanTail (fun hay =>
    match takeNDigits 3 hay with
    | none => false
    | some r =>
      match takeNDigits 3 (optSep r) with
      | none => false
      | some r2 => (takeNDigits 4 (optSep r2)).isSome)
    s

/-- The `/\b(contact|email|phone).*?[@]|[@].*?\b(gov|edu|org|com)/i` test of
`hasMinimumSpecificity`: two top-level alternatives. -/
def contactInfoTest (t : List Char) : Bool :=
  scanB (fun prev hay =>
    boundaryBefore prev &&
      (["contact", "email", "phone"].any
        (fun w => w.data.isPrefixOf hay && (hay.drop w.length).contains '@')))
    none t
  || scanTail (fun hay =>
      hay.head? = some '@'
        && hasPrefixWordScan ["gov", "edu", "org", "com"] (some '@') (hay.drop 1))
    t

/-- The `/\bdownload\b.*?\b(application|form|pdf|guidelines)/i` test. -/
def downloadLinkTest (t : List Char) : Bool :=
  scanB (fun prev hay =>
    boundaryBefore prev && "download".data.isPrefixOf hay
      && boundaryAfter (hay.drop 8)
      && hasPrefixWordScan ["application", "form", "pdf", "guidelines"]
          (some 'd') (hay.drop 8))
    none t

/-- The `/\bapply\b.*?\b(online|here|now|portal)/i` test. -/
def applyLinkTest (t : List Char) : Bool :=
  scanB (fun prev hay =>
    boundaryBefore prev && "apply".data.isPrefixOf hay
      && boundaryAfter (hay.drop 5)
      && hasPrefixWordScan ["online", "here", "now", "portal"]
          (some 'y') (hay.drop 5))
    none t

/-- The `\b(opportunity|solicitation|announcement|funding|notice)\s+`
`(number|no\.?|#)\s*:?\s*[A-Z0-9-]{5,}` test of `hasMinimumSpecificity`
(with the backtracking of `no\.?` against the trailing run). -/
def oppNumberIdTest (t : List Char) : Bool :=
  scanB (fun prev hay =>
    boundaryBefore prev &&
      (["opportunity", "solicitation", "announcement", "funding", "notice"].any
        (fun w1 =>
          w1.data.isPrefixOf hay &&
            (let r := hay.drop w1.length
             let ws := r.takeWhile isWs
             !ws.isEmpty &&
               ["number", "no.", "no", "#"].any (fun w2 =>
                 w2.data.isPrefixOf (r.drop ws.length) &&
                   (let r3 := (r.drop ws.length).drop w2.length
                    let r4 := r3.dropWhile isWs
                    let r5 := if r4.head? = some ':' then r4.drop 1 else r4
                    let r6 := r5.dropWhile isWs
                    5 ≤ (r6.takeWhile (fun c =>
                      isAlphaChar c || isDigitChar c || c = '-')).length))))))
    none t

/-- The `/\b(FOA|RFA|NOFO|PA-|RFP|BAA)-[A-Z0-9-]{3,}/i` test (note the
`PA-` alternative is followed by a further literal `-`). -/
def foaTest (t : List Char) : Bool :=
  scanB (fun prev hay =>
    boundaryBefore prev &&
      (["foa", "rfa", "nofo", "pa-", "rfp", "baa"].any (fun w =>
        w.data.isPrefixOf hay && (hay.drop w.length).head? = some '-'
          && 3 ≤ ((hay.drop (w.length + 1)).takeWhile (fun c =>
              isAlphaChar c || isDigitChar c || c = '-')).length)))
    none t

/-- The `/\bFY\s*20\d{2}\b/i` test. -/
def fiscalYearTest (t : List Char) : Bool :=
  scanB (fun prev hay =>
    boundaryBefore prev && "fy".data.isPrefixOf hay
      && (let r := (hay.drop 2).dropWhile isWs
          "20".data.isPrefixOf r && ((r.drop 2).take 2).length = 2
            && ((r.drop 2).take 2).all isDigitChar
            && boundaryAfter (r.drop 4)))
    none t

/-- grantness.js `hasMinimumSpecificity`.  The deadline argument is the
(embedded) `parseDeadline` result — a non-empty deadline string is a parsed
date; the award argument is the `extractAwardAmount` result, whose
non-empty values are `Number.prototype.toString` outputs on which
`parseFloat` always succeeds.  `hostname` models
`new URL(url).hostname.toLowerCase()`. -/
def hasMinimumSpecificity (response_deadline : Option Civil)
    (award_amount : Option ℚ) (text : String) (hostname : String) : Bool :=
  if response_deadline.isSome then true
  else if award_amount.isSome then true
  else
    let t := lowerL text.data
    if oppNumberIdTest t || foaTest t || fiscalYearTest t then true
    else
      let isFloridaSite := containsS hostname "florida" || containsS hostname ".fl."
        || containsS hostname "jacksonville" || containsS hostname "coj.net"
      let isGovSite := endsWithS hostname ".gov"
      if isFloridaSite || isGovSite then
        contactInfoTest t || phoneTest text.data || downloadLinkTest t
          || applyLinkTest t
          || hasBoundedWordAny
              ["rolling", "ongoing", "continuous", "year-round", "until funds"]
              text
      else false

/-! ### grantness.js `analyzeGrantPage`

A fetched page is embedded by its url, its raw html (only its emptiness is
consulted), the result of `new URL(url).hostname` (`none` when the WHATWG
parser throws), and the cheerio extraction results the classifier reads
(`''` models an absent attribute or empty selection).  The ambient clock
(`new Date()`) is an explicit parameter, in days since the epoch. -/

/-- A fetched page together with its DOM extraction results. -/
structure Page where
  url : String
  html : String
  urlHost : Option String
  ogTitle : String
  docTitle : String
  metaDescription : String
  firstParagraph : String
  bodyText : String
  ogSiteName : String
  agencyMeta : String
  agencyHeading : String
  deriving DecidableEq, Repr

/-- The `raw_data` provenance object serialized into an accepted record. -/
structure RawData where
  url : String
  title : String
  description : String
  featureHits : List String
  topic_hits : List String
  response_deadline : Option Civil
  award_amount : Option ℚ
  agency : String
  deriving DecidableEq, Repr

/-- The record shape built by `analyzeGrantPage` (the canonical scrape-path
opportunity, matching the `opportunities` table of the server).  Dates and
amounts keep their parsed embeddings; `created_at` is the clock reading. -/
structure GrantRecord where
  id : String
  source : String
  source_record_url : String
  title : String
  summary : String
  agency : String
  posted_date : String
  response_deadline : Option Civil
  naics : String
  psc : String
  set_aside : String
  pop_city : String
  pop_state : String
  pop_zip : String
  pop_country : String
  poc_name : String
  poc_email : String
  poc_phone : String
  award_number : String
  award_amount : Option ℚ
  award_date : String
  award_awardee : String
  relevance_score : ℚ
  topic_hits : String
  created_at : ℚ
  raw_data : RawData
  deriving DecidableEq, Repr

/-- The normalized title read by `analyzeGrantPage`:
`og:title || <title> || snippet`. -/
def pageTitle (p : Page) (snippet : String) : String :=
  normalizeText (jsOrS p.ogTitle (jsOrS p.docTitle snippet))

/-- The normalized description read by `analyzeGrantPage`:
`snippet || meta description || first paragraph`. -/
def pageDescription (p : Page) (snippet : String) : String :=
  normalizeText (jsOrS snippet (jsOrS p.metaDescription p.firstParagraph))

/-- The normalized body text read by `analyzeGrantPage`. -/
def pageText (p : Page) : String := normalizeText p.bodyText

/-- The record literal `analyzeGrantPage` builds for an accepted page. -/
def acceptedRecordCore (p : Page) (snippet locationHint : String) (now : ℚ)
    (hostname : String) : GrantRecord :=
  let title := pageTitle p snippet
  let description := pageDescription p snippet
  let text := pageText p
  let topic_hits := detectTopicHits text
  let featureHits := getGrantFeatureHits text
  let response_deadline := parseDeadline text
  let award_amount := extractAwardAmount text
  let agency := extractAgency p.ogSiteName p.agencyMeta p.agencyHeading
    hostname text
  let city := (splitLocation locationHint).1
  let state := (splitLocation locationHint).2
  let domainTrust := computeDomainTrust hostname
  let relevance_score := scoreOpportunity topic_hits domainTrust
    response_deadline now
  let source :=
    if hostname ≠ "" && trimS hostname ≠ "" then hostname else "web-scraped"
  { id := createStableId p.url
    source := source
    source_record_url := p.url
    title := jsOrS title (jsOrS description "Untitled Opportunity")
    summary := description
    agency := agency
    posted_date := ""
    response_deadline := response_deadline
    naics := ""
    psc := ""
    set_aside := ""
    pop_city := city
    pop_state := state
    pop_zip := ""
    pop_country := if city ≠ "" || state ≠ "" then "US" else ""
    poc_name := ""
    poc_email := ""
    poc_phone := ""
    award_number := ""
    award_amount := award_amount
    award_date := ""
    award_awardee := ""
    relevance_score := relevance_score
    topic_hits := String.intercalate ";" topic_hits
    created_at := now
    raw_data :=
      { url := p.url, title := title, description := description,
        featureHits := featureHits, topic_hits := topic_hits,
        response_deadline := response_deadline,
        award_amount := award_amount, agency := agency } }

/-- The record `analyzeGrantPage` returns: the literal plus its two
defensive fix-ups (an empty `source` or `title` is replaced; both are in
fact already non-empty on this path). -/
def acceptedRecord (p : Page) (snippet locationHint : String) (now : ℚ)
    (hostname : String) : GrantRecord :=
  let record := acceptedRecordCore p snippet locationHint now hostname
  let record1 :=
    if record.source = "" then { record with source := "web-scraped" }
    else record
  if record1.title = "" then { record1 with title := "Untitled Opportunity" }
  else record1

/-- grantness.js `analyzeGrantPage`.  Returns `Except.error ()` where the
source throws (an unparseable non-empty url), `Except.ok none` for
`{isGrant: false}`, and `Except.ok (some record)` for an accepted page.
The guard chain is the source's cascade in order; the pure extraction
functions are simply re-applied where the source binds them once. -/
def analyzeGrantPage (p : Page) (snippet locationHint : String) (now : ℚ) :
    Except Unit (Option GrantRecord) :=
  if p.url = "" || p.html = "" then .ok none
  else
    match p.urlHost with
    | none => .error ()
    | some host =>
      let hostname := lower host
      if !isAllowedDomain hostname then .ok none
      else if pageTitle p snippet = ""
          || hasBlocklistedSignal p.url (pageTitle p snippet)
              (pageDescription p snippet) then .ok none
      else if hasTribalSpecificContent (pageTitle p snippet)
          (pageDescription p snippet) (pageText p) p.url then .ok none
      else if isGenericLandingPage (pageTitle p snippet) p.url (pageText p)
          hostname then .ok none
      else if (detectTopicHits (pageText p)).isEmpty then .ok none
      else if (getGrantFeatureHits (pageText p)).length < MIN_FEATURE_MATCHES
        then .ok none
      else if (parseDeadline (pageText p)).isSome
          && isExpiredDeadline (parseDeadline (pageText p)) now then .ok none
      else if !hasMinimumSpecificity (parseDeadline (pageText p))
          (extractAwardAmount (pageText p)) (pageText p) hostname then .ok none
      else .ok (some (acceptedRecord p snippet locationHint now hostname))

/-! ### grantness.js `selectTopOpportunities` -/

/-- The two candidate fields the selector consults. -/
structure Candidate where
  response_deadline : Option Civil
  relevance_score : ℚ
  deriving DecidableEq, Repr

/-- The comparator of `selectTopOpportunities` as a `≤` test: the sign of
the comparator value (`new Date(a) - new Date(b)` compares the underlying
midnights; equal dates and the undated/undated case fall through to the
relevance comparison). -/
def selectorLe (a b : Candidate) : Bool :=
  match a.response_deadline, b.response_deadline with
  | some da, some db =>
    if da.toDays ≠ db.toDays then decide (da.toDays < db.toDays)
    else decide (b.relevance_score ≤ a.relevance_score)
  | some _, none => true
  | none, some _ => false
  | none, none => decide (b.relevance_score ≤ a.relevance_score)

/-- grantness.js `selectTopOpportunities`: stable sort by the comparator
(ECMAScript `Array.prototype.sort` is stable, as is `List.mergeSort`), then
truncate to `limit`. -/
def selectTopOpportunities (opportunities : List Candidate) (limit : ℕ) :
    List Candidate :=
  (opportunities.mergeSort selectorLe).take limit

/-! ### JavaScript values and raw records

`mapOpportunity` receives `unknown` objects; the values its field accesses
can meet are embedded as a small JavaScript value type. -/

/-- An untyped JavaScript value (the shapes the mapper inspects). -/
inductive JSV where
  | undef
  | nullv
  | str (s : String)
  | num (q : ℚ)
  | arr (elems : List JSV)
  deriving Repr

/-- JavaScript truthiness of the embedded values. -/
def JSV.truthy : JSV → Bool
  | .undef => false
  | .nullv => false
  | .str s => s ≠ ""
  | .num q => q ≠ 0
  | .arr _ => true

/-- JavaScript `a || b`. -/
def jsOr (a b : JSV) : JSV := if a.truthy then a else b

/-- A non-empty decimal rendering of a rational, standing in for
`Number.prototype.toString` (only the emptiness and determinism of the
rendering are ever consulted). -/
def jsNumToString (q : ℚ) : String := toString q.num ++ "/" ++ toString q.den

mutual

/-- JavaScript `String(v)` on the embedded values (`[]` renders empty,
arrays join with commas). -/
def JSV.jsToString : JSV → String
  | .undef => "undefined"
  | .nullv => "null"
  | .str s => s
  | .num q => jsNumToString q
  | .arr l => String.intercalate "," (JSV.jsToStringList l)

/-- Element-wise rendering of an array value. -/
def JSV.jsToStringList : List JSV → List String
  | [] => []
  | v :: vs => v.jsToString :: JSV.jsToStringList vs

end

/-- A raw upstream record: the fields `mapOpportunity` and the dedupe key
of `pull` inspect, each an untyped value (`undef` models an absent key). -/
structure Raw where
  id : JSV := .undef
  title : JSV := .undef
  number : JSV := .undef
  agencyCode : JSV := .undef
  agency : JSV := .undef
  cfdaList : JSV := .undef
  category : JSV := .undef
  openDate : JSV := .undef
  postedDate : JSV := .undef
  postDate : JSV := .undef
  postedAt : JSV := .undef
  createdAt : JSV := .undef
  closeDate : JSV := .undef
  closingDate : JSV := .undef
  deadline : JSV := .undef
  closesAt : JSV := .undef
  awardCeiling : JSV := .undef
  maxAward : JSV := .undef
  awardFloor : JSV := .undef
  minAward : JSV := .undef
  eligibility : JSV := .undef
  eligibleApplicants : JSV := .undef
  synopsisUrl : JSV := .undef
  synopsis : JSV := .undef
  url : JSV := .undef
  fullTextUrl : JSV := .undef
  fullText : JSV := .undef
  fullAnnouncementUrl : JSV := .undef
  opportunityId : JSV := .undef
  oppId : JSV := .undef
  deriving Repr

/-! ### Full-string date parsing (`new Date(string)` in the mapper)

`util/time.ts` `toISOString` hands the whole (trimmed) string to the
`Date` constructor.  The model accepts the formats this repository
exercises — ISO dates, ISO date-times, month-name dates and slash dates —
and treats every other string as unparsable. -/

/-- A parsed instant: a calendar date plus milliseconds into the day. -/
structure Instant where
  date : Civil
  msOfDay : ℕ
  deriving DecidableEq, Repr

/-- Render an instant the way `Date.prototype.toISOString` does. -/
def Instant.iso (i : Instant) : String :=
  let s := i.msOfDay / 1000
  i.date.iso ++ "T" ++ padZero 2 (toString (s / 3600)) ++ ":"
    ++ padZero 2 (toString (s / 60 % 60)) ++ ":" ++ padZero 2 (toString (s % 60))
    ++ "." ++ padZero 3 (toString (i.msOfDay % 1000)) ++ "Z"

/-- An all-digit piece of bounded length, as a number. -/
def digitsPiece (lo hi : ℕ) (s : String) : Option ℕ :=
  if lo ≤ s.data.length && s.data.length ≤ hi && !s.data.isEmpty
      && s.data.all isDigitChar then
    some (digitsToNat s.data)
  else none

/-- Strict ISO calendar date `YYYY-MM-DD`. -/
def parseIsoDateFull (s : String) : Option Civil :=
  match splitOnC '-' s with
  | [ys, ms, ds] =>
    match digitsPiece 4 4 ys, digitsPiece 2 2 ms, digitsPiece 2 2 ds with
    | some y, some m, some d =>
      let c : Civil := ⟨(y : ℤ), m, d⟩
      if c.valid then some c else none
    | _, _, _ => none
  | _ => none

/-- ISO time of day `HH:MM:SS`, `HH:MM:SS.sss`, with or without a trailing
`Z` (either reading denotes UTC under the UTC-runtime convention). -/
def parseIsoTimeFull (s : String) : Option ℕ :=
  let core := if endsWithS s "Z" then ⟨s.data.dropLast⟩ else s
  let (hms, ms) :=
    match splitOnC '.' core with
    | [a, b] => (a, digitsPiece 3 3 b)
    | [a] => (a, some 0)
    | _ => (core, none)
  match ms with
  | none => none
  | some msv =>
    match splitOnC ':' hms with
    | [hs, mins, secs] =>
      match digitsPiece 2 2 hs, digitsPiece 2 2 mins, digitsPiece 2 2 secs with
      | some h, some mi, some se =>
        if h < 24 && mi < 60 && se < 60 then
          some (((h * 60 + mi) * 60 + se) * 1000 + msv)
        else none
      | _, _, _ => none
    | _ => none

/-- Month-name date `December 15, 2025` as accepted by the legacy parser
(month prefix of at least three letters, two-digit years widen). -/
def parseNamedFull (s : List Char) : Option Civil :=
  let letters := s.takeWhile isAlphaChar
  match monthFromName letters with
  | none => none
  | some m =>
    let r := s.drop letters.length
    let ws := r.takeWhile isWs
    if ws.isEmpty then none
    else
      let r2 := r.drop ws.length
      let dayDigits := r2.takeWhile isDigitChar
      if dayDigits.isEmpty || 2 < dayDigits.length then none
      else
        match r2.drop dayDigits.length with
        | ',' :: rest =>
          let ws2 := rest.takeWhile isWs
          if ws2.isEmpty then none
          else
            let yearDigits := rest.drop ws2.length
            if yearDigits.isEmpty || 6 < yearDigits.length
                || !yearDigits.all isDigitChar then none
            else
              let c : Civil :=
                ⟨widenYear (digitsToNat yearDigits), m, digitsToNat dayDigits⟩
              if c.valid then some c else none
        | _ => none

/-- Slash date `MM/DD/YYYY` as accepted by the legacy parser. -/
def parseSlashFull (s : String) : Option Civil :=
  match splitOnC '/' s with
  | [ms, ds, ys] =>
    if !ms.data.isEmpty && ms.data.all isDigitChar
        && !ds.data.isEmpty && ds.data.all isDigitChar
        && !ys.data.isEmpty && ys.data.length ≤ 6 && ys.data.all isDigitChar then
      let c : Civil :=
        ⟨widenYear (digitsToNat ys.data), digitsToNat ms.data, digitsToNat ds.data⟩
      if c.valid then some c else none
    else none
  | _ => none

/-- `new Date(string)` on a whole (trimmed) string: ISO date, ISO
date-time, month-name date or slash date. -/
def jsDateFull (s0 : String) : Option Instant :=
  let s := trimS s0
  match parseIsoDateFull s with
  | some c => some ⟨c, 0⟩
  | none =>
    match splitOnC 'T' s with
    | [ds, ts] =>
      match parseIsoDateFull ds, parseIsoTimeFull ts with
      | some c, some ms => some ⟨c, ms⟩
      | _, _ => none
    | _ =>
      match parseNamedFull (lowerL s.data) with
      | some c => some ⟨c, 0⟩
      | none => (parseSlashFull s).map (fun c => ⟨c, 0⟩)

/-- `util/time.ts` `toISOString` on a string argument: `new Date(s)` then
`toISOString`, `none` for an invalid date. -/
def toISOStringJS (s : String) : Option String :=
  (jsDateFull s).map Instant.iso

/-- `mapOpportunity.ts` `mmddyyyyToISO`: three all-digit slash parts build
a padded ISO candidate (a four-digit year and in-range month and day make
it a valid `Date`); anything else falls back to standard parsing. -/
def mmddyyyyToISO (s : String) : Option String :=
  match splitOnC '/' s with
  | [ms, ds, ys] =>
    if !ms.data.isEmpty && !ds.data.isEmpty && !ys.data.isEmpty
        && ms.data.all isDigitChar && ds.data.all isDigitChar
        && ys.data.all isDigitChar then
      let mp := padZero 2 ms
      let dp := padZero 2 ds
      let c : Civil := ⟨(digitsToNat ys.data : ℤ), digitsToNat ms.data, digitsToNat ds.data⟩
      if ys.data.length = 4 && mp.data.length = 2 && dp.data.length = 2 && c.valid then
        some (Instant.iso ⟨c, 0⟩)
      else toISOStringJS s
    else toISOStringJS s
  | _ => toISOStringJS s

/-- JavaScript `parseFloat`: skip leading whitespace, an optional sign,
then a decimal prefix; `NaN` (no digit) is `none`.  Exponents do not occur
in this repository's data. -/
def parseFloatJS (s : String) : Option ℚ :=
  let t := s.data.dropWhile isWs
  let (sign, t2) : ℚ × List Char :=
    match t with
    | '-' :: r => (-1, r)
    | '+' :: r => (1, r)
    | _ => (1, t)
  let ip := t2.takeWhile isDigitChar
  let rest := t2.drop ip.length
  let fp :=
    match rest with
    | '.' :: r => r.takeWhile isDigitChar
    | _ => []
  if ip.isEmpty && fp.isEmpty then none
  else some (sign * ((digitsToNat ip : ℚ) + (digitsToNat fp : ℚ) / (10 : ℚ) ^ fp.length))

/-! ### `transform/mapOpportunity.ts` and `transform/schema.ts` -/

/-- The canonical opportunity of `schema.ts` (`z.infer<typeof Opportunity>`). -/
structure Opportunity where
  id : String
  opportunityNumber : Option String
  title : String
  agency : String
  category : List String
  postedDate : String
  closeDate : Option String
  awardCeiling : Option ℚ
  awardFloor : Option ℚ
  eligibility : List String
  synopsisUrl : Option String
  fullTextUrl : Option String
  raw : Raw
  deriving Repr

/-- Comma-split with trimming and empty filtering, as the mapper treats
string-valued `category` and `eligibility` fields. -/
def splitTrimFilter (s : String) : List String :=
  ((splitOnC ',' s).map trimS).filter (fun c => c ≠ "")

/-- The `isNaN(x || NaN) ? null : x || null` normalization of the award
fields: `NaN` is already `none`, and a zero amount collapses to `null`. -/
def finalizeAward (o : Option ℚ) : Option ℚ :=
  match o with
  | none => none
  | some q => if q = 0 then none else some q

/-- The date-string extraction shared by the posted and close dates: a
truthy string field with non-blank trim, routed through `mmddyyyyToISO`
when it has exactly three slash parts. -/
def mapDateField (v : JSV) : Option String :=
  match v with
  | .str s =>
    if trimS s ≠ "" then
      if containsS s "/" && (splitOnC '/' s).length = 3 then mmddyyyyToISO s
      else toISOStringJS s
    else none
  | _ => none

/-- `mapOpportunity.ts` `mapOpportunity`: fails on a missing identity or
title or when the first truthy posted-date alias does not parse; a missing
or unparsable close date becomes `null`. -/
def mapOpportunity (raw : Raw) : Except String Opportunity :=
  let id := (jsOr raw.id (.str "")).jsToString
  if id = "" then .error "Missing required field: id"
  else
    let title := (jsOr raw.title (.str "")).jsToString
    if title = "" then .error s!"Missing required field: title for id {id}"
    else
      let opportunityNumber :=
        if raw.number.truthy then some raw.number.jsToString else none
      let agency :=
        match raw.agencyCode with
        | .str s => s
        | _ =>
          match raw.agency with
          | .str s => s
          | _ => ""
      let category :=
        match raw.cfdaList with
        | .arr l => l.map (fun v => v.jsToString)
        | _ =>
          match raw.category with
          | .arr l => l.map (fun v => v.jsToString)
          | .str s => splitTrimFilter s
          | _ => []
      let dateStr := jsOr raw.openDate (jsOr raw.postedDate
        (jsOr raw.postDate (jsOr raw.postedAt raw.createdAt)))
      match mapDateField dateStr with
      | none =>
        .error s!"Missing required field: postedDate (checked openDate, postedDate, postDate, postedAt, createdAt) for id {id}"
      | some postedDate =>
        let closeStr := jsOr raw.closeDate (jsOr raw.closingDate
          (jsOr raw.deadline raw.closesAt))
        let closeDate := mapDateField closeStr
        let awardCeiling :=
          match raw.awardCeiling with
          | .num q => some q
          | _ =>
            match raw.maxAward with
            | .num q => some q
            | _ =>
              match raw.awardCeiling with
              | .str s => parseFloatJS s
              | _ => none
        let awardFloor :=
          match raw.awardFloor with
          | .num q => some q
          | _ =>
            match raw.minAward with
            | .num q => some q
            | _ =>
              match raw.awardFloor with
              | .str s => parseFloatJS s
              | _ => none
        let eligibility :=
          match raw.eligibility with
          | .arr l => l.map (fun v => v.jsToString)
          | .str s => splitTrimFilter s
          | _ =>
            match raw.eligibleApplicants with
            | .arr l => l.map (fun v => v.jsToString)
            | .str s => splitTrimFilter s
            | _ => []
        let synopsisUrl :=
          match raw.synopsisUrl with
          | .str s => some s
          | _ =>
            match raw.synopsis with
            | .str s => some s
            | _ =>
              match raw.url with
              | .str s => some s
              | _ => none
        let fullTextUrl :=
          match raw.fullTextUrl with
          | .str s => some s
          | _ =>
            match raw.fullText with
            | .str s => some s
            | _ =>
              match raw.fullAnnouncementUrl with
              | .str s => some s
              | _ => none
        .ok
          { id := id
            opportunityNumber := opportunityNumber
            title := title
            agency := agency
            category := category
            postedDate := postedDate
            closeDate := closeDate
            awardCeiling := finalizeAward awardCeiling
            awardFloor := finalizeAward awardFloor
            eligibility := eligibility
            synopsisUrl := synopsisUrl
            fullTextUrl := fullTextUrl
            raw := raw }

/-- `schema.ts` `Opportunity.parse`: the structural requirements of the zod
schema are enforced by the embedding's types; the residual value check is
`title: z.string().min(1)`.  (The `.url()` format checks of the two
nullable link fields are not modelled; they never decide a claim.) -/
def zodValidateOpportunity (o : Opportunity) : Except String Opportunity :=
  if o.title = "" then
    .error "String must contain at least 1 character(s)"
  else .ok o

/-! ### Serialized field lists (schema completeness)

JavaScript objects can miss keys; the claims about field presence are
stated on serializations of the embedded records that mirror the object
literals of the sources key by key. -/

/-- A serialized JavaScript field value. -/
inductive JVal where
  | s (v : String)
  | n (v : ℚ)
  | null
  | undef
  | arr (vs : List String)
  | rawv (v : Raw)
  | rawData (v : RawData)
  deriving Repr

/-- The deadline string stored in a scrape-path record (`''` when no
deadline was extracted). -/
def deadlineStr : Option Civil → String
  | none => ""
  | some c => c.iso

/-- The amount string stored in a scrape-path record (`''` when no amount
was extracted). -/
def amountStr : Option ℚ → String
  | none => ""
  | some q => jsNumToString q

/-- The object produced by `mapOpportunity`, key by key in literal order. -/
def opportunityToJS (o : Opportunity) : List (String × JVal) :=
  [("id", .s o.id),
   ("opportunityNumber",
     match o.opportunityNumber with | some v => .s v | none => .undef),
   ("title", .s o.title),
   ("agency", .s o.agency),
   ("category", .arr o.category),
   ("postedDate", .s o.postedDate),
   ("closeDate", match o.closeDate with | some v => .s v | none => .null),
   ("awardCeiling", match o.awardCeiling with | some v => .n v | none => .null),
   ("awardFloor", match o.awardFloor with | some v => .n v | none => .null),
   ("eligibility", .arr o.eligibility),
   ("synopsisUrl", match o.synopsisUrl with | some v => .s v | none => .null),
   ("fullTextUrl", match o.fullTextUrl with | some v => .s v | none => .null),
   ("raw", .rawv o.raw)]

/-- The keys of the `z.object` in `schema.ts`, in declaration order. -/
def opportunitySchemaFields : List String :=
  ["id", "opportunityNumber", "title", "agency", "category", "postedDate",
   "closeDate", "awardCeiling", "awardFloor", "eligibility", "synopsisUrl",
   "fullTextUrl", "raw"]

/-- The record built by `analyzeGrantPage`, key by key in literal order. -/
def grantRecordToJS (r : GrantRecord) : List (String × JVal) :=
  [("id", .s r.id),
   ("source", .s r.source),
   ("source_record_url", .s r.source_record_url),
   ("title", .s r.title),
   ("summary", .s r.summary),
   ("agency", .s r.agency),
   ("posted_date", .s r.posted_date),
   ("response_deadline", .s (deadlineStr r.response_deadline)),
   ("naics", .s r.naics),
   ("psc", .s r.psc),
   ("set_aside", .s r.set_aside),
   ("pop_city", .s r.pop_city),
   ("pop_state", .s r.pop_state),
   ("pop_zip", .s r.pop_zip),
   ("pop_country", .s r.pop_country),
   ("poc_name", .s r.poc_name),
   ("poc_email", .s r.poc_email),
   ("poc_phone", .s r.poc_phone),
   ("award_number", .s r.award_number),
   ("award_amount", .s (amountStr r.award_amount)),
   ("award_date", .s r.award_date),
   ("award_awardee", .s r.award_awardee),
   ("relevance_score", .n r.relevance_score),
   ("topic_hits", .s r.topic_hits),
   ("created_at", .n r.created_at),
   ("raw_data", .rawData r.raw_data)]

/-- The columns of the `opportunities` table created by the web-app server
(`CREATE TABLE` in `server/index.js`), in declaration order — the canonical
scrape-path schema. -/
def opportunitiesTableColumns : List String :=
  ["id", "source", "source_record_url", "title", "summary", "agency",
   "posted_date", "response_deadline", "naics", "psc", "set_aside",
   "pop_city", "pop_state", "pop_zip", "pop_country", "poc_name",
   "poc_email", "poc_phone", "award_number", "award_amount", "award_date",
   "award_awardee", "relevance_score", "topic_hits", "created_at",
   "raw_data"]

/-! ### `GrantsGovClient.fetchAll` (index.ts)

The pagination loop, specialized to an upstream that reports a fixed
`hitCount` (the synthetic upstream of the pagination claims); the page
contents at each `startRecordNum` remain an arbitrary function.  Each
iteration performs exactly one `fetchPage` call and increments `pageCount`,
so the returned `pageCount` is the number of calls. -/

/-- One iteration of the `while (hasMore)` loop of `fetchAll`: fetch
`page s`, accumulate, then stop on the `maxPages` safety valve, on an empty
page, or when the next start record would reach the reported hit count. -/
def fetchAllLoop {α : Type} (page : ℕ → List α) (N P : ℕ) (hP : 0 < P)
    (maxPages : Option ℕ) (s pageCount : ℕ) (acc : List α) :
    List α × ℕ :=
  let hits := page s
  let acc2 := acc ++ hits
  let pc2 := pageCount + 1
  if maxPages.any (fun m => decide (m ≤ pc2)) then (acc2, pc2)
  else if hits.isEmpty then (acc2, pc2)
  else if _h : s + P < N then
    fetchAllLoop page N P hP maxPages (s + P) pc2 acc2
  else (acc2, pc2)
termination_by N - s
decreasing_by omega

/-- `fetchAll`: start at `startRecordNum || 0`, with effective page size
`pageSize || 100`; returns the accumulated records and the number of
`fetchPage` calls. -/
def fetchAll {α : Type} (page : ℕ → List α) (N pageSize : ℕ)
    (maxPages : Option ℕ) (start : ℕ) : List α × ℕ :=
  if h : pageSize = 0 then
    fetchAllLoop page N 100 (by omega) maxPages start 0 []
  else
    fetchAllLoop page N pageSize (Nat.pos_of_ne_zero h) maxPages start 0 []

/-- The synthetic upstream of the pagination property: `hitCount = N` and
each page serves the next `min(P, remaining)` records. -/
def synthPage (N P s : ℕ) : List ℕ :=
  (List.range (min P (N - s))).map (fun i => s + i)

/-! ### `pull` (index.ts)

The orchestration sequences external effects — config load, checkpoint
read, paginated fetch, output writes, checkpoint write — around the pure
dedupe/map/validate core.  Each effect is a field of `PullEffects`
(its `Except` outcome), and `pull` additionally returns the trace of
effects it performed, in order, so that "the checkpoint is written only
after …" is a statement about the trace. -/

/-- `util/time.ts` `toStartOfDayISO`: `new Date(s + "T00:00:00Z")`, which
is valid exactly on strict ISO dates; otherwise the util throws. -/
def toStartOfDayISO (s : String) : Except String String :=
  match parseIsoDateFull s with
  | some c => .ok (Instant.iso ⟨c, 0⟩)
  | none => .error s!"Invalid date string: {s}"

/-- The external effects `pull` performs, with their outcomes. -/
structure PullEffects where
  loadConfig : Except String Unit
  readCheckpoint : Except String (Option String)
  fetchAllStep : Except String (List Raw)
  writeRejects : Except String Unit
  writeJson : Except String Unit
  writeCsv : Except String Unit
  writeSqlite : Except String Unit
  writeCheckpoint : Except String Unit

/-- A performed effect, for the trace. -/
inductive PullEvent where
  | readCheckpoint
  | fetchAll
  | writeRejects
  | writeJson
  | writeCsv
  | writeSqlite
  | writeCheckpoint
  deriving DecidableEq, Repr

/-- The options `pull` consults. -/
structure PullOptions where
  since : Option String := none
  sqlite : Bool := false
  pageSize : Option ℕ := none

/-- The summary `pull` returns.  `durationMs` is elapsed wall clock,
irrelevant to every claim and modelled as zero. -/
structure PullResult where
  totalFetched : ℕ
  valid : ℕ
  rejected : ℕ
  pages : ℕ
  durationMs : ℚ
  deriving DecidableEq, Repr

/-- The dedupe key of `pull`:
`String(obj.id || obj.opportunityId || obj.opportunityNumber || obj.oppId || "")`
(the raw model exposes `number` for the mapper and `opportunityNumber` is
untyped; both read the same upstream field, embedded as `number`). -/
def rawDedupeId (r : Raw) : String :=
  (jsOr r.id (jsOr r.opportunityId (jsOr r.number (jsOr r.oppId (.str ""))))).jsToString

/-- The `Map`-based dedupe of `pull`: first occurrence of each non-empty id
wins, insertion order preserved. -/
def dedupeById : List Raw → List String → List Raw
  | [], _ => []
  | r :: rs, seen =>
    let i := rawDedupeId r
    if i ≠ "" && !seen.contains i then r :: dedupeById rs (i :: seen)
    else dedupeById rs seen

/-- Run one effect, record its event, and continue on success. -/
def stepE (x : Except String Unit) (ev : PullEvent)
    (k : Unit → Except String PullResult × List PullEvent) :
    Except String PullResult × List PullEvent :=
  match x with
  | .error e => (.error e, [ev])
  | .ok _ =>
    let r := k ()
    (r.1, ev :: r.2)

/-- The write phase of `pull` (index.ts lines 114-149): the rejects
side-channel when any record was rejected, then the JSON output, the CSV
output, SQLite when configured, and only then the checkpoint, returning
the summary `res`.  Each step short-circuits on error. -/
def pullWrites (fx : PullEffects) (sqlite needRejects : Bool)
    (res : PullResult) : Except String PullResult × List PullEvent :=
  let afterRejects := fun (_ : Unit) =>
    stepE fx.writeJson .writeJson (fun _ =>
      stepE fx.writeCsv .writeCsv (fun _ =>
        let afterSqlite := fun (_ : Unit) =>
          stepE fx.writeCheckpoint .writeCheckpoint (fun _ => (.ok res, []))
        if sqlite then stepE fx.writeSqlite .writeSqlite afterSqlite
        else afterSqlite ()))
  if needRejects then stepE fx.writeRejects .writeRejects afterRejects
  else afterRejects ()

/-- index.ts `pull`: resolve the date window (an explicit `since` bypasses
the checkpoint read), fetch all pages, dedupe by id, map and validate each
raw record — failures divert to the rejects, never abort —, then run the
write phase (`pullWrites`), which advances the checkpoint last.  The `try`
around the body rethrows every error. -/
def pull (fx : PullEffects) (opts : PullOptions) :
    Except String PullResult × List PullEvent :=
  match fx.loadConfig with
  | .error e => (.error e, [])
  | .ok _ =>
    let sinceRes : Except String (Option String) × List PullEvent :=
      match opts.since with
      | some s => ((toStartOfDayISO s).map some, [])
      | none => (fx.readCheckpoint, [.readCheckpoint])
    match sinceRes with
    | (.error e, evs) => (.error e, evs)
    | (.ok _, evs) =>
      match fx.fetchAllStep with
      | .error e => (.error e, evs ++ [.fetchAll])
      | .ok raws =>
        let allRaw := dedupeById raws []
        let mapped := allRaw.map
          (fun r => (mapOpportunity r).bind zodValidateOpportunity)
        let validCount := (mapped.filter (fun x => x.toOption.isSome)).length
        let rejectCount := mapped.length - validCount
        let pageSize :=
          match opts.pageSize with
          | some n => if n = 0 then 100 else n
          | none => 100
        let tail := pullWrites fx opts.sqlite (decide (0 < rejectCount))
          { totalFetched := allRaw.length
            valid := validCount
            rejected := rejectCount
            pages := (allRaw.length + pageSize - 1) / pageSize
            durationMs := 0 }
        (tail.1, evs ++ .fetchAll :: tail.2)

/-! ## Shared lemmas -/

theorem jsOrS_ne_right {a b : String} (hb : b ≠ "") : jsOrS a b ≠ "" := by
  unfold jsOrS
  split
  · exact hb
  · assumption

theorem acceptedRecordCore_source_ne (p : Page) (s l : String) (now : ℚ)
    (host : String) : (acceptedRecordCore p s l now host).source ≠ "" := by
  show (if host ≠ "" && trimS host ≠ "" then host else "web-scraped") ≠ ""
  split
  · rename_i hc
    simp only [Bool.and_eq_true, decide_eq_true_eq] at hc
    exact hc.1
  · simp

theorem acceptedRecordCore_title_ne (p : Page) (s l : String) (now : ℚ)
    (host : String) : (acceptedRecordCore p s l now host).title ≠ "" := by
  show jsOrS (pageTitle p s) (jsOrS (pageDescription p s)
    "Untitled Opportunity") ≠ ""
  exact jsOrS_ne_right (jsOrS_ne_right (by simp))

theorem acceptedRecord_eq_core (p : Page) (s l : String) (now : ℚ)
    (host : String) :
    acceptedRecord p s l now host = acceptedRecordCore p s l now host := by
  unfold acceptedRecord
  dsimp only
  rw [if_neg (acceptedRecordCore_source_ne p s l now host),
    if_neg (acceptedRecordCore_title_ne p s l now host)]

theorem analyzeGrantPage_ok_some (p : Page) (s l : String) (now : ℚ)
    (r : GrantRecord) (host : String) (hhost : p.urlHost = some host)
    (h : analyzeGrantPage p s l now = .ok (some r)) :
    r = acceptedRecordCore p s l now (lower host) := by
  rw [analyzeGrantPage.eq_def] at h
  rw [hhost] at h
  dsimp only at h
  split at h
  · exact absurd h (by simp)
  split at h
  · exact absurd h (by simp)
  split at h
  · exact absurd h (by simp)
  split at h
  · exact absurd h (by simp)
  split at h
  · exact absurd h (by simp)
  split at h
  · exact absurd h (by simp)
  split at h
  · exact absurd h (by simp)
  split at h
  · exact absurd h (by simp)
  split at h
  · exact absurd h (by simp)
  rw [Except.ok.injEq, Option.some.injEq] at h
  rw [← h, acceptedRecord_eq_core]

/-! ## Claims -/

/-- C2: `computeDeadlineScore` returns 0.3 when no deadline is given or it
is unparsable (both embedded as `none`); 0.2 when the deadline is in the
past (a non-positive day difference); the clamped linear value
`max 0.2 (1 - diff/180)` — scaling from 1.0 just after 0 days down to 0.2,
and staying in `[0.2, 1)` — for a deadline strictly between 0 and 180 days
in the future; and the 0.4 floor for every deadline 180 or more days in
the future. -/
theorem computeDeadlineScore_spec :
    (∀ now : ℚ, computeDeadlineScore none now = 3 / 10) ∧
    (∀ (d : Civil) (now : ℚ), (d.toDays : ℚ) - now ≤ 0 →
        computeDeadlineScore (some d) now = 2 / 10) ∧
    (∀ (d : Civil) (now : ℚ), 0 < (d.toDays : ℚ) - now →
        (d.toDays : ℚ) - now < 180 →
        computeDeadlineScore (some d) now
            = max (2 / 10) (1 - ((d.toDays : ℚ) - now) / 180) ∧
          2 / 10 ≤ computeDeadlineScore (some d) now ∧
          computeDeadlineScore (some d) now < 1) ∧
    (∀ (d : Civil) (now : ℚ), 180 ≤ (d.toDays : ℚ) - now →
        computeDeadlineScore (some d) now = 4 / 10) := by
  refine ⟨fun now => rfl, ?_, ?_, ?_⟩
  · intro d now hle
    simp only [computeDeadlineScore]
    rw [if_pos hle]
  · intro d now h0 h180
    simp only [computeDeadlineScore]
    rw [if_neg (by linarith), if_neg (by linarith)]
    refine ⟨rfl, le_max_left _ _, ?_⟩
    rw [max_lt_iff]
    constructor <;> [norm_num; skip]
    have : 0 < ((d.toDays : ℚ) - now) / 180 := by positivity
    linarith
  · intro d now hge
    simp only [computeDeadlineScore]
    rw [if_neg (by linarith), if_pos hge]

/-- Witness for C2 at concrete dates: a deadline 90 days out scores
`max 0.2 (1 - 90/180) = 0.5`, a past deadline scores 0.2, a deadline 200
days out scores 0.4 (day 20437 is 2025-12-15). -/
theorem computeDeadlineScore_spec_witness :
    computeDeadlineScore none 20347 = 3 / 10 ∧
    computeDeadlineScore (some ⟨2025, 12, 15⟩) 20527 = 2 / 10 ∧
    computeDeadlineScore (some ⟨2025, 12, 15⟩) 20347 = 1 / 2 ∧
    computeDeadlineScore (some ⟨2025, 12, 15⟩) 20237 = 4 / 10 := by
  have htd : Civil.toDays ⟨2025, 12, 15⟩ = 20437 := by decide
  refine ⟨computeDeadlineScore_spec.1 20347,
    computeDeadlineScore_spec.2.1 ⟨2025, 12, 15⟩ 20527 (by rw [htd]; norm_num),
    ?_, computeDeadlineScore_spec.2.2.2 ⟨2025, 12, 15⟩ 20237 (by rw [htd]; norm_num)⟩
  have h := (computeDeadlineScore_spec.2.2.1 ⟨2025, 12, 15⟩ 20347
    (by rw [htd]; norm_num) (by rw [htd]; norm_num)).1
  rw [h, htd]
  norm_num [max_def]

/-- C1: every record returned by a classified page that passes all filter
stages carries `relevance = round2(0.6·min(1, matches/3) + 0.2·domainTrust
+ 0.2·deadlineScore)` computed from the page's own body text, hostname and
extracted deadline; and every hostname that passes the domain allow-list
has a domain trust of exactly 1 (a `.gov` hostname), 0.9 (`.mil` or `.us`)
or 0.8 (an explicitly trusted host), never any other value. -/
theorem relevance_formula_and_domain_trust :
    (∀ (p : Page) (snippet locationHint : String) (now : ℚ) (r : GrantRecord)
      (host : String),
      p.urlHost = some host →
      analyzeGrantPage p snippet locationHint now = .ok (some r) →
      r.relevance_score =
        round2 ((6 / 10) * min 1 (((detectTopicHits (pageText p)).length : ℚ) / 3)
          + (2 / 10) * computeDomainTrust (lower host)
          + (2 / 10) * computeDeadlineScore (parseDeadline (pageText p)) now)) ∧
    (∀ h : String, isAllowedDomain h = true →
      (computeDomainTrust h = 1 ∧ endsWithS (lower h) ".gov" = true) ∨
      (computeDomainTrust h = 9 / 10 ∧
        (endsWithS (lower h) ".mil" = true ∨ endsWithS (lower h) ".us" = true)) ∨
      (computeDomainTrust h = 8 / 10 ∧ TRUSTED_HOSTS.contains (lower h) = true)) := by
  constructor
  · intro p s l now r host hhost h
    rw [analyzeGrantPage_ok_some p s l now r host hhost h]
    show scoreOpportunity (detectTopicHits (pageText p))
      (computeDomainTrust (lower host)) (parseDeadline (pageText p)) now = _
    unfold scoreOpportunity
    dsimp only
    rw [round2, round2]
    congr 2
    ring_nf
  · intro h hdom
    have hne : ¬(h = "") := by
      intro he
      rw [isAllowedDomain, if_pos he] at hdom
      exact Bool.false_ne_true hdom
    rw [computeDomainTrust, if_neg hne]
    by_cases hgov : endsWithS (lower h) ".gov" = true
    · left
      rw [if_pos hgov]
      exact ⟨rfl, hgov⟩
    · by_cases hus : endsWithS (lower h) ".us" = true
      · right; left
        rw [if_neg hgov, if_pos (by rw [hus]; simp)]
        exact ⟨rfl, Or.inr hus⟩
      · by_cases hmil : endsWithS (lower h) ".mil" = true
        · right; left
          rw [if_neg hgov, if_pos (by rw [hmil]; simp)]
          exact ⟨rfl, Or.inl hmil⟩
        · have htr : TRUSTED_HOSTS.contains (lower h) = true := by
            rw [isAllowedDomain, if_neg hne] at hdom
            simp only [ALLOWED_DOMAIN_SUFFIXES, List.any_cons, List.any_nil,
              Bool.or_eq_true, Bool.or_false] at hdom
            rcases hdom with htr | hg | hm | hu
            · exact htr
            · exact absurd hg hgov
            · exact absurd hm hmil
            · exact absurd hu hus
          right; right
          rw [if_neg hgov, if_neg (by simp [hus, hmil]), if_pos htr]
          exact ⟨rfl, htr⟩

/-! ### A concrete page accepted by the classifier (shared witness data) -/

/-- Body text of a concrete page that passes every filter stage and has no
extractable deadline (no `deadline`/`due`/`closing date` phrase). -/
def witBody : String :=
  "Eligibility rules for this initiative are described below. Nonprofit organizations may apply for FY 2025 support of services for survivors of human trafficking in the region. The office will host sessions to explain the process and answer questions from interested community organizations across the northeast Florida region."

/-- A concrete page on an allowed `.gov` host accepted by the classifier. -/
def witPage : Page :=
  { url := "https://www.ojp.gov/funding/RFA-2025-1234"
    html := "<html>x</html>"
    urlHost := some "www.ojp.gov"
    ogTitle := "Services for Survivors of Human Trafficking"
    docTitle := ""
    metaDescription := ""
    firstParagraph := ""
    bodyText := witBody
    ogSiteName := "Office of Justice Programs"
    agencyMeta := ""
    agencyHeading := "" }

/-- The snippet passed with the concrete page. -/
def witSnippet : String :=
  "Grant funding to support comprehensive services for survivors."

/-- The location hint passed with the concrete page. -/
def witLocation : String := "Jacksonville, FL"

set_option maxRecDepth 40000 in
/-- Witness for C1: the concrete accepted page has the claimed relevance
formula, and the trusted host `hhs.gov` lands in the `.gov` trust case. -/
theorem relevance_formula_and_domain_trust_witness :
    (acceptedRecordCore witPage witSnippet witLocation 20370
        (lower "www.ojp.gov")).relevance_score =
      round2 ((6 / 10) * min 1 (((detectTopicHits (pageText witPage)).length : ℚ) / 3)
        + (2 / 10) * computeDomainTrust (lower "www.ojp.gov")
        + (2 / 10) * computeDeadlineScore (parseDeadline (pageText witPage)) 20370) ∧
    ((computeDomainTrust "hhs.gov" = 1 ∧ endsWithS (lower "hhs.gov") ".gov" = true) ∨
      (computeDomainTrust "hhs.gov" = 9 / 10 ∧
        (endsWithS (lower "hhs.gov") ".mil" = true ∨
          endsWithS (lower "hhs.gov") ".us" = true)) ∨
      (computeDomainTrust "hhs.gov" = 8 / 10 ∧
        TRUSTED_HOSTS.contains (lower "hhs.gov") = true)) := by
  constructor
  · exact relevance_formula_and_domain_trust.1 witPage witSnippet witLocation
      20370 _ "www.ojp.gov" rfl rfl
  · exact relevance_formula_and_domain_trust.2 "hhs.gov" (by decide)

/-- The selector ordering as the specification states it: dated before
undated; between two dated, the earlier deadline first; otherwise (both
undated, or equal deadlines) the higher relevance first. -/
def selectorOrder (a b : Candidate) : Prop :=
  (a.response_deadline.isSome ∧ b.response_deadline = none) ∨
  (∃ da db, a.response_deadline = some da ∧ b.response_deadline = some db ∧
    da.toDays < db.toDays) ∨
  (((a.response_deadline = none ∧ b.response_deadline = none) ∨
      (∃ da db, a.response_deadline = some da ∧ b.response_deadline = some db ∧
        da.toDays = db.toDays)) ∧
    b.relevance_score ≤ a.relevance_score)

theorem selectorLe_total (a b : Candidate) : selectorLe a b || selectorLe b a := by
  obtain ⟨ad, asc⟩ := a
  obtain ⟨bd, bsc⟩ := b
  rcases ad with _ | da <;> rcases bd with _ | db <;> dsimp only [selectorLe]
  · simp only [Bool.or_eq_true, decide_eq_true_eq]
    exact le_total bsc asc
  · simp
  · simp
  · by_cases hne : da.toDays = db.toDays
    · rw [if_neg (by omega), if_neg (by omega)]
      simp only [Bool.or_eq_true, decide_eq_true_eq]
      exact le_total bsc asc
    · rw [if_pos (by omega), if_pos (by omega)]
      simp only [Bool.or_eq_true, decide_eq_true_eq]
      omega

theorem selectorLe_trans (a b c : Candidate) (hab : selectorLe a b = true)
    (hbc : selectorLe b c = true) : selectorLe a c = true := by
  obtain ⟨ad, asc⟩ := a
  obtain ⟨bd, bsc⟩ := b
  obtain ⟨cd, csc⟩ := c
  rcases ad with _ | da <;> rcases bd with _ | db <;> rcases cd with _ | dc <;>
    dsimp only [selectorLe] at hab hbc ⊢ <;>
    first
      | rfl
      | exact absurd hab Bool.false_ne_true
      | exact absurd hbc Bool.false_ne_true
      | skip
  · rw [decide_eq_true_eq] at hab hbc ⊢
    exact le_trans hbc hab
  · by_cases h1 : da.toDays = db.toDays
    · rw [if_neg (by omega), decide_eq_true_eq] at hab
      by_cases h2 : db.toDays = dc.toDays
      · rw [if_neg (by omega), decide_eq_true_eq] at hbc
        rw [if_neg (by omega), decide_eq_true_eq]
        exact le_trans hbc hab
      · rw [if_pos (by omega), decide_eq_true_eq] at hbc
        rw [if_pos (by omega), decide_eq_true_eq]
        omega
    · rw [if_pos (by omega), decide_eq_true_eq] at hab
      by_cases h2 : db.toDays = dc.toDays
      · rw [if_pos (by omega), decide_eq_true_eq]
        omega
      · rw [if_pos (by omega), decide_eq_true_eq] at hbc
        rw [if_pos (by omega), decide_eq_true_eq]
        omega

theorem selectorLe_imp (a b : Candidate) (h : selectorLe a b = true) :
    selectorOrder a b := by
  obtain ⟨ad, asc⟩ := a
  obtain ⟨bd, bsc⟩ := b
  unfold selectorOrder
  rcases ad with _ | da <;> rcases bd with _ | db <;>
    dsimp only [selectorLe] at h <;>
    first
      | exact absurd h Bool.false_ne_true
      | skip
  · rw [decide_eq_true_eq] at h
    exact Or.inr (Or.inr ⟨Or.inl ⟨rfl, rfl⟩, h⟩)
  · exact Or.inl ⟨by trivial, rfl⟩
  · by_cases h1 : da.toDays = db.toDays
    · rw [if_neg (by omega), decide_eq_true_eq] at h
      exact Or.inr (Or.inr ⟨Or.inr ⟨da, db, rfl, rfl, h1⟩, h⟩)
    · rw [if_pos (by omega), decide_eq_true_eq] at h
      exact Or.inr (Or.inl ⟨da, db, rfl, rfl, h⟩)

/-- C4: `selectTopOpportunities` returns the first `limit` candidates of a
stable sort of its input under the ordering: dated before undated, earlier
deadline first among dated, higher relevance otherwise; and on the three
candidates (2025-12-20, 0.9), (2025-11-01, 0.7), (2025-12-20, 0.95) with
limit 2, the 2025-11-01 candidate comes first, followed by a 2025-12-20
candidate whose score 0.95 is at least 0.9. -/
theorem selector_ordering :
    (∀ (l : List Candidate) (limit : ℕ),
      ∃ sorted : List Candidate,
        selectTopOpportunities l limit = sorted.take limit ∧
        sorted.Perm l ∧ sorted.Pairwise selectorOrder) ∧
    selectTopOpportunities
        [⟨some ⟨2025, 12, 20⟩, 9 / 10⟩, ⟨some ⟨2025, 11, 1⟩, 7 / 10⟩,
         ⟨some ⟨2025, 12, 20⟩, 95 / 100⟩] 2
      = [⟨some ⟨2025, 11, 1⟩, 7 / 10⟩, ⟨some ⟨2025, 12, 20⟩, 95 / 100⟩] ∧
    (9 / 10 : ℚ) ≤
      (Candidate.mk (some ⟨2025, 12, 20⟩) (95 / 100)).relevance_score := by
  refine ⟨?_, ?_, by norm_num⟩
  · intro l limit
    refine ⟨l.mergeSort selectorLe, rfl, List.mergeSort_perm l selectorLe, ?_⟩
    exact (List.sorted_mergeSort selectorLe_trans selectorLe_total l).imp
      (fun h => selectorLe_imp _ _ h)
  · simp only [selectTopOpportunities]
    norm_num [List.mergeSort, List.splitInTwo, List.splitAt, List.splitAt.go,
      List.merge, selectorLe, Civil.toDays]

/-- C10: on every input whose url is a non-empty string that the WHATWG URL
parser rejects (`urlHost = none`) while the html is non-empty,
`analyzeGrantPage` throws (the `new URL(url)` call on line two) instead of
returning `CanonicalOpportunity | {isGrant: false}`; the declared result
shape is only guaranteed when the url is empty or parseable. -/
theorem analyzeGrantPage_throws_on_unparsable_url :
    ∀ (p : Page) (snippet locationHint : String) (now : ℚ),
      p.url ≠ "" → p.html ≠ "" → p.urlHost = none →
      analyzeGrantPage p snippet locationHint now = .error () := by
  intro p s l now hu hh hhost
  rw [analyzeGrantPage.eq_def, hhost]
  rw [if_neg (by simp [hu, hh])]

/-- A page whose url does not parse as an absolute URL. -/
def witBadPage : Page :=
  { url := "not a url"
    html := "<p>x</p>"
    urlHost := none
    ogTitle := ""
    docTitle := ""
    metaDescription := ""
    firstParagraph := ""
    bodyText := ""
    ogSiteName := ""
    agencyMeta := ""
    agencyHeading := "" }

/-- Witness for C10 at the concrete unparsable url. -/
theorem analyzeGrantPage_throws_on_unparsable_url_witness :
    analyzeGrantPage witBadPage "" "" 0 = .error () :=
  analyzeGrantPage_throws_on_unparsable_url witBadPage "" "" 0 (by decide)
    (by decide) rfl

/-- C5: a page that passes every filter stage before the expiry filter but
whose extracted deadline is strictly before the current day (date-only:
midnights compared against `⌊now⌋`) is rejected with `{isGrant: false}`,
regardless of the remaining specificity stage; and a page with no
extractable deadline is never rejected by the expiry stage — with every
other stage passing it is accepted. -/
theorem expiry_rejection :
    (∀ (p : Page) (snippet locationHint : String) (now : ℚ) (host : String)
        (d : Civil),
      p.urlHost = some host →
      p.url ≠ "" → p.html ≠ "" →
      isAllowedDomain (lower host) = true →
      pageTitle p snippet ≠ "" →
      hasBlocklistedSignal p.url (pageTitle p snippet)
        (pageDescription p snippet) = false →
      hasTribalSpecificContent (pageTitle p snippet) (pageDescription p snippet)
        (pageText p) p.url = false →
      isGenericLandingPage (pageTitle p snippet) p.url (pageText p)
        (lower host) = false →
      (detectTopicHits (pageText p)).isEmpty = false →
      ¬((getGrantFeatureHits (pageText p)).length < MIN_FEATURE_MATCHES) →
      parseDeadline (pageText p) = some d →
      (d.toDays : ℚ) < ((⌊now⌋ : ℤ) : ℚ) →
      analyzeGrantPage p snippet locationHint now = .ok none) ∧
    (∀ (p : Page) (snippet locationHint : String) (now : ℚ) (host : String),
      p.urlHost = some host →
      p.url ≠ "" → p.html ≠ "" →
      isAllowedDomain (lower host) = true →
      pageTitle p snippet ≠ "" →
      hasBlocklistedSignal p.url (pageTitle p snippet)
        (pageDescription p snippet) = false →
      hasTribalSpecificContent (pageTitle p snippet) (pageDescription p snippet)
        (pageText p) p.url = false →
      isGenericLandingPage (pageTitle p snippet) p.url (pageText p)
        (lower host) = false →
      (detectTopicHits (pageText p)).isEmpty = false →
      ¬((getGrantFeatureHits (pageText p)).length < MIN_FEATURE_MATCHES) →
      parseDeadline (pageText p) = none →
      hasMinimumSpecificity none (extractAwardAmount (pageText p)) (pageText p)
        (lower host) = true →
      analyzeGrantPage p snippet locationHint now
        = .ok (some (acceptedRecord p snippet locationHint now (lower host)))) := by
  constructor
  · intro p s l now host d hhost hA hB hC hD hE hF hG hH hI hdl hexp
    rw [analyzeGrantPage.eq_def, hhost]
    dsimp only
    rw [if_neg (by simp [hA, hB])]
    rw [if_neg (by simp [hC])]
    rw [if_neg (by simp [hD, hE])]
    rw [if_neg (by simp [hF])]
    rw [if_neg (by simp [hG])]
    rw [if_neg (by simp [hH])]
    rw [if_neg (by simp [hI])]
    rw [if_pos (by rw [hdl]; simp [isExpiredDeadline, hexp])]
  · intro p s l now host hhost hA hB hC hD hE hF hG hH hI hdl hspec
    rw [analyzeGrantPage.eq_def, hhost]
    dsimp only
    rw [if_neg (by simp [hA, hB])]
    rw [if_neg (by simp [hC])]
    rw [if_neg (by simp [hD, hE])]
    rw [if_neg (by simp [hF])]
    rw [if_neg (by simp [hG])]
    rw [if_neg (by simp [hH])]
    rw [if_neg (by simp [hI])]
    rw [if_neg (by rw [hdl]; simp)]
    rw [if_neg (by rw [hdl]; simp [hspec])]

/-- The concrete accepted page with an expired deadline appended to its
body (2020-01-05, day 18266, against a clock at day 20370). -/
def witPageExpired : Page :=
  { witPage with bodyText := witBody ++ " Deadline: January 5, 2020." }

set_option maxRecDepth 100000 in
/-- Witness for C5: the concrete page with the expired deadline is
rejected; the same page without any deadline phrase is accepted. -/
theorem expiry_rejection_witness :
    analyzeGrantPage witPageExpired witSnippet witLocation 20370 = .ok none ∧
    analyzeGrantPage witPage witSnippet witLocation 20370
      = .ok (some (acceptedRecord witPage witSnippet witLocation 20370
          (lower "www.ojp.gov"))) := by
  constructor
  · exact expiry_rejection.1 witPageExpired witSnippet witLocation 20370
      "www.ojp.gov" ⟨2020, 1, 5⟩ rfl (by decide) (by decide) (by decide)
      (by decide) (by decide) (by decide) (by decide) (by decide) (by decide)
      (by decide)
      (by rw [show Civil.toDays ⟨2020, 1, 5⟩ = 18266 from by decide]; norm_num)
  · exact expiry_rejection.2 witPage witSnippet witLocation 20370
      "www.ojp.gov" rfl (by decide) (by decide) (by decide) (by decide)
      (by decide) (by decide) (by decide) (by decide) (by decide) (by decide)
      (by decide)

set_option maxRecDepth 100000 in
/-- Counterexample to C8 as stated: `analyzeGrantPage` reads the ambient
clock (`new Date()` in `created_at`, the deadline score and the expiry
check), so two calls on the identical four inputs at different instants
return different records — here the concrete accepted page evaluated at
day 20370 and at day 20371. -/
theorem analyzeGrantPage_clock_counterexample :
    analyzeGrantPage witPage witSnippet witLocation 20370
      ≠ analyzeGrantPage witPage witSnippet witLocation 20371 := by
  have h1 : analyzeGrantPage witPage witSnippet witLocation 20370
      = .ok (some (acceptedRecord witPage witSnippet witLocation 20370
          (lower "www.ojp.gov"))) := rfl
  have h2 : analyzeGrantPage witPage witSnippet witLocation 20371
      = .ok (some (acceptedRecord witPage witSnippet witLocation 20371
          (lower "www.ojp.gov"))) := rfl
  rw [h1, h2]
  intro h
  rw [Except.ok.injEq, Option.some.injEq] at h
  have hca := congrArg GrantRecord.created_at h
  rw [acceptedRecord_eq_core, acceptedRecord_eq_core] at hca
  have h3 : (20370 : ℚ) = 20371 := hca
  norm_num at h3

/-- C8 (amended): `analyzeGrantPage` is a deterministic function of its
four inputs and the ambient clock, not of the inputs alone; on every page
with no extractable deadline the clock reaches the result only through the
`created_at` field — the outputs at any two instants agree after setting
`created_at`.  (With a deadline present, the expiry decision and the
relevance score also vary with the clock, as the counterexample input
shows.) -/
theorem analyzeGrantPage_deterministic_modulo_created_at :
    ∀ (p : Page) (snippet locationHint : String) (t1 t2 : ℚ),
      parseDeadline (pageText p) = none →
      analyzeGrantPage p snippet locationHint t1
        = (analyzeGrantPage p snippet locationHint t2).map
            (Option.map (fun r => { r with created_at := t1 })) := by
  intro p s l t1 t2 hdl
  rw [analyzeGrantPage.eq_def, analyzeGrantPage.eq_def]
  split
  · rfl
  rcases hhost : p.urlHost with _ | host
  · rfl
  dsimp only
  split
  · rfl
  split
  · rfl
  split
  · rfl
  split
  · rfl
  split
  · rfl
  split
  · rfl
  rw [hdl]
  have hexp1 : ¬(((none : Option Civil).isSome
      && isExpiredDeadline none t1) = true) := by simp
  have hexp2 : ¬(((none : Option Civil).isSome
      && isExpiredDeadline none t2) = true) := by simp
  rw [if_neg hexp1, if_neg hexp2]
  split
  · rfl
  dsimp only [Except.map, Option.map]
  rw [Except.ok.injEq, Option.some.injEq]
  rw [acceptedRecord_eq_core, acceptedRecord_eq_core]
  unfold acceptedRecordCore
  dsimp only
  rw [hdl]
  rfl

set_option maxRecDepth 100000 in
/-- Witness for the amended C8 at the concrete deadline-free page and the
instants 20370 and 20371. -/
theorem analyzeGrantPage_deterministic_modulo_created_at_witness :
    analyzeGrantPage witPage witSnippet witLocation 20370
      = (analyzeGrantPage witPage witSnippet witLocation 20371).map
          (Option.map (fun r => { r with created_at := (20370 : ℚ) })) :=
  analyzeGrantPage_deterministic_modulo_created_at witPage witSnippet
    witLocation 20370 20371 rfl

/-- C9: every accepted record has every field of its canonical schema
present.  On the API path, a record produced by `mapOpportunity` (and then
validated by the `Opportunity` schema) serializes with exactly the key list
of the `z.object` in schema.ts; on the scrape path, a record accepted by
`analyzeGrantPage` serializes with exactly the column list of the
`opportunities` table.  Fields may be empty, `null` or `undefined`, but no
key is ever missing. -/
theorem schema_completeness :
    (∀ (raw : Raw) (o : Opportunity), mapOpportunity raw = .ok o →
      (opportunityToJS o).map Prod.fst = opportunitySchemaFields) ∧
    (∀ (p : Page) (snippet locationHint : String) (now : ℚ) (r : GrantRecord),
      analyzeGrantPage p snippet locationHint now = .ok (some r) →
      (grantRecordToJS r).map Prod.fst = opportunitiesTableColumns) := by
  constructor
  · intro raw o _
    rfl
  · intro p snippet locationHint now r _
    rfl

theorem fetchAllLoop_calls_le (page : ℕ → List ℕ) (N P : ℕ) (hP : 0 < P)
    (m : ℕ) : ∀ s pc acc,
    (fetchAllLoop page N P hP (some m) s pc acc).2 ≤ max (pc + 1) m := by
  intro s0 pc0 acc0
  induction s0, pc0, acc0 using fetchAllLoop.induct page N P hP (some m) with
  | case1 =>
    rename_i h
    rw [fetchAllLoop.eq_def]
    dsimp only
    rw [if_pos h]
    exact le_max_left _ _
  | case2 =>
    rename_i h1 h2
    rw [fetchAllLoop.eq_def]
    dsimp only
    rw [if_neg h1, if_pos h2]
    exact le_max_left _ _
  | case3 =>
    rename_i h1 h2 h3 ih
    rw [fetchAllLoop.eq_def]
    dsimp only
    rw [if_neg h1, if_neg h2, dif_pos h3]
    refine le_trans ih ?_
    simp only [Option.any_some, decide_eq_true_eq, not_le] at h1
    omega
  | case4 =>
    rename_i h1 h2 h3
    rw [fetchAllLoop.eq_def]
    dsimp only
    rw [if_neg h1, if_neg h2, dif_neg h3]
    exact le_max_left _ _

theorem fetchAllLoop_synth_spec (N P : ℕ) (hP : 0 < P) :
    ∀ s pc acc, s < N →
      (fetchAllLoop (synthPage N P) N P hP none s pc acc).1.length
          = acc.length + (N - s) ∧
      (fetchAllLoop (synthPage N P) N P hP none s pc acc).2
          = pc + (N - s + P - 1) / P := by
  intro s0 pc0 acc0
  induction s0, pc0, acc0 using fetchAllLoop.induct (synthPage N P) N P hP none with
  | case1 =>
    rename_i h
    simp at h
  | case2 =>
    rename_i s pc acc hits pc2 h1 h2
    intro hs
    exfalso
    have h2b : (synthPage N P s).isEmpty = true := h2
    have h2m : min P (N - s) = 0 := by
      simpa [synthPage, List.isEmpty_iff] using h2b
    rcases Nat.min_eq_zero_iff.mp h2m with h | h <;> omega
  | case3 =>
    rename_i s pc acc hits acc2 pc2 h1 h2 h3 ih
    intro _
    rw [fetchAllLoop.eq_def]
    dsimp only
    rw [if_neg h1, if_neg h2, dif_pos h3]
    obtain ⟨ihl, ihc⟩ := ih h3
    have ihl2 : (fetchAllLoop (synthPage N P) N P hP none (s + P) (pc + 1)
        (acc ++ synthPage N P s)).1.length
        = (acc ++ synthPage N P s).length + (N - (s + P)) := ihl
    have ihc2 : (fetchAllLoop (synthPage N P) N P hP none (s + P) (pc + 1)
        (acc ++ synthPage N P s)).2 = (pc + 1) + (N - (s + P) + P - 1) / P := ihc
    have hlen : (synthPage N P s).length = P := by
      simp [synthPage, min_eq_left (by omega : P ≤ N - s)]
    constructor
    · rw [ihl2, List.length_append, hlen]
      omega
    · rw [ihc2]
      have hd : N - s + P - 1 = (N - (s + P) + P - 1) + P := by omega
      rw [hd, Nat.add_div_right _ hP]
      omega
  | case4 =>
    rename_i s pc acc hits pc2 h1 h2 h3
    intro hs
    rw [fetchAllLoop.eq_def]
    dsimp only
    rw [if_neg h1, if_neg h2, dif_neg h3]
    have hlen : (synthPage N P s).length = min P (N - s) := by
      simp [synthPage]
    have hmin : min P (N - s) = N - s := min_eq_right (by omega)
    constructor
    · rw [List.length_append, hlen, hmin]
    · have hone : (N - s + P - 1) / P = 1 := by
        apply Nat.div_eq_of_lt_le <;> omega
      omega

/-- Counterexample to C3 as stated: a synthetic upstream reporting
`hitCount = 0` with page size 2 still costs one `fetchPage` call — the loop
must fetch a page to learn there is nothing — while `⌈0/2⌉ = 0`; the claim
"exactly ⌈N/P⌉ calls" fails at `N = 0` (and likewise `maxPages = 0` cannot
prevent the first call). -/
theorem fetchAll_calls_counterexample :
    (fetchAll (synthPage 0 2) 0 2 none 0).2 ≠ (0 + 2 - 1) / 2 := by
  have h : (fetchAll (synthPage 0 2) 0 2 none 0).2 = 1 := by
    rw [fetchAll, dif_neg (by norm_num), fetchAllLoop.eq_def]
    norm_num [synthPage]
  rw [h]
  norm_num

/-- C3 (amended): on the synthetic upstream with `hitCount = N` and pages
of the next `min(P, remaining)` records, `fetchAll` without `maxPages`
returns exactly `N` records using exactly `max 1 ⌈N/P⌉` `fetchPage` calls —
the first call always happens, so an empty result still costs one call —
and with any supplied `maxPages = m` it performs at most `max 1 m` calls
against every upstream. -/
theorem fetchAll_pagination :
    (∀ N P : ℕ, 0 < P →
      (fetchAll (synthPage N P) N P none 0).1.length = N ∧
      (fetchAll (synthPage N P) N P none 0).2 = max 1 ((N + P - 1) / P)) ∧
    (∀ (page : ℕ → List ℕ) (N P m : ℕ), 0 < P →
      (fetchAll page N P (some m) 0).2 ≤ max 1 m) := by
  constructor
  · intro N P hP
    rw [fetchAll, dif_neg (by omega)]
    rcases Nat.eq_zero_or_pos N with hN | hN
    · subst hN
      rw [fetchAllLoop.eq_def]
      have hempty : (synthPage 0 P 0).isEmpty = true := by
        simp [synthPage]
      dsimp only
      rw [if_neg (by simp), if_pos hempty]
      have hdiv : (0 + P - 1) / P = 0 := Nat.div_eq_of_lt (by omega)
      constructor
      · simp [synthPage]
      · rw [hdiv]
        simp
    · obtain ⟨hl, hc⟩ := fetchAllLoop_synth_spec N P
        (Nat.pos_of_ne_zero (by omega)) 0 0 [] hN
      simp only [Nat.sub_zero] at hl hc
      refine ⟨by simpa using hl, ?_⟩
      rw [hc]
      have h1 : 1 ≤ (N + P - 1) / P := by
        rw [Nat.le_div_iff_mul_le hP]
        omega
      omega
  · intro page N P m hP
    rw [fetchAll, dif_neg (by omega)]
    have := fetchAllLoop_calls_le page N P (Nat.pos_of_ne_zero (by omega))
      m 0 0 []
    omega

/-- Witness for the amended C3: `N = 5`, `P = 2` needs exactly
`max 1 ⌈5/2⌉ = 3` calls for exactly 5 records, and `maxPages = 2` caps the
calls at 2. -/
theorem fetchAll_pagination_witness :
    (fetchAll (synthPage 5 2) 5 2 none 0).1.length = 5 ∧
    (fetchAll (synthPage 5 2) 5 2 none 0).2 = max 1 ((5 + 2 - 1) / 2) ∧
    (fetchAll (synthPage 5 2) 5 2 (some 2) 0).2 ≤ max 1 2 :=
  ⟨(fetchAll_pagination.1 5 2 (by norm_num)).1,
    (fetchAll_pagination.1 5 2 (by norm_num)).2,
    fetchAll_pagination.2 (synthPage 5 2) 5 2 2 (by norm_num)⟩

/-- A raw record the mapper accepts. -/
def witRaw : Raw :=
  { id := .str "TEST-001", title := .str "Test Grant",
    openDate := .str "2025-01-15T10:00:00Z" }

/-- The canonical opportunity `mapOpportunity` produces from `witRaw`. -/
def witOpp : Opportunity :=
  { id := "TEST-001", opportunityNumber := none, title := "Test Grant",
    agency := "", category := [], postedDate := "2025-01-15T10:00:00.000Z",
    closeDate := none, awardCeiling := none, awardFloor := none,
    eligibility := [], synopsisUrl := none, fullTextUrl := none,
    raw := witRaw }

set_option maxRecDepth 100000 in
/-- Witness for C9 at a concrete mapped record and the concrete accepted
page. -/
theorem schema_completeness_witness :
    (opportunityToJS witOpp).map Prod.fst = opportunitySchemaFields ∧
    (grantRecordToJS (acceptedRecord witPage witSnippet witLocation 20370
        (lower "www.ojp.gov"))).map Prod.fst = opportunitiesTableColumns :=
  ⟨schema_completeness.1 witRaw witOpp rfl,
    schema_completeness.2 witPage witSnippet witLocation 20370 _ rfl⟩

/-! ### C6: the mapper's required fields -/

theorem interp2 (a b : String) : toString a ++ toString b ++ toString "" = a ++ b := by
  show a ++ b ++ "" = a ++ b
  exact String.append_empty _

/-- A raw record whose first truthy posted-date alias (`openDate`) is
unparsable while the next alias (`postedDate`) parses. -/
def witRawAlias : Raw :=
  { id := .str "A", title := .str "T",
    openDate := .str "not-a-date", postedDate := .str "2025-01-15" }

/-- Counterexample to C6 as stated: the mapper reads only the FIRST truthy
posted-date alias (`date = raw.openDate || raw.postedDate || ...` before
parsing), so a garbage `openDate` makes it throw even though a posted date
is derivable from the `postedDate` alias. -/
theorem mapOpportunity_alias_counterexample :
    mapOpportunity witRawAlias =
      .error "Missing required field: postedDate (checked openDate, postedDate, postDate, postedAt, createdAt) for id A" ∧
    mapDateField witRawAlias.postedDate = some "2025-01-15T00:00:00.000Z" :=
  ⟨rfl, rfl⟩

/-- C6 (amended): `mapOpportunity` throws an error identifying the missing
field exactly when the identity is absent or empty, the title is absent or
empty, or the FIRST truthy posted-date alias (in order `openDate`,
`postedDate`, `postDate`, `postedAt`, `createdAt`) is missing, blank or
unparsable — later aliases are not consulted once an earlier one is
truthy; for every other raw record it returns a canonical opportunity, and
an absent or unparsable close date never causes failure: `closeDate` is
exactly the (possibly `none`) parse of the first truthy close-date alias. -/
theorem mapOpportunity_required_fields (raw : Raw) :
    ((jsOr raw.id (.str "")).jsToString = "" →
      mapOpportunity raw = .error "Missing required field: id") ∧
    ((jsOr raw.id (.str "")).jsToString ≠ "" →
      (jsOr raw.title (.str "")).jsToString = "" →
      mapOpportunity raw =
        .error ("Missing required field: title for id "
          ++ (jsOr raw.id (.str "")).jsToString)) ∧
    ((jsOr raw.id (.str "")).jsToString ≠ "" →
      (jsOr raw.title (.str "")).jsToString ≠ "" →
      mapDateField (jsOr raw.openDate (jsOr raw.postedDate
        (jsOr raw.postDate (jsOr raw.postedAt raw.createdAt)))) = none →
      mapOpportunity raw =
        .error ("Missing required field: postedDate (checked openDate, postedDate, postDate, postedAt, createdAt) for id "
          ++ (jsOr raw.id (.str "")).jsToString)) ∧
    ((jsOr raw.id (.str "")).jsToString ≠ "" →
      (jsOr raw.title (.str "")).jsToString ≠ "" →
      ∀ p, mapDateField (jsOr raw.openDate (jsOr raw.postedDate
        (jsOr raw.postDate (jsOr raw.postedAt raw.createdAt)))) = some p →
      ∃ o, mapOpportunity raw = .ok o ∧ o.postedDate = p ∧
        o.closeDate = mapDateField (jsOr raw.closeDate (jsOr raw.closingDate
          (jsOr raw.deadline raw.closesAt)))) := by
  refine ⟨fun h1 => ?_, fun h1 h2 => ?_, fun h1 h2 h3 => ?_, fun h1 h2 p hp => ?_⟩
  · simp only [mapOpportunity]
    rw [if_pos h1]
  · simp only [mapOpportunity]
    rw [if_neg h1, if_pos h2]
    exact congrArg Except.error (interp2 _ _)
  · simp only [mapOpportunity]
    rw [if_neg h1, if_neg h2, h3]
    exact congrArg Except.error (interp2 _ _)
  · simp only [mapOpportunity]
    rw [if_neg h1, if_neg h2, hp]
    exact ⟨_, rfl, rfl, rfl⟩

/-- A raw record with identity and title but no posted-date alias at all. -/
def witRawNoDate : Raw := { id := .str "A", title := .str "T" }

/-- A raw record with a parsable posted date and an unparsable close date. -/
def witRawBadClose : Raw :=
  { id := .str "A", title := .str "T",
    postedDate := .str "2025-01-15", closeDate := .str "whenever" }

/-- Witness for the amended C6: the empty raw record fails on `id`, a
dateless record fails on `postedDate`, and an unparsable close date still
maps successfully with `closeDate = none`. -/
theorem mapOpportunity_required_fields_witness :
    mapOpportunity {} = .error "Missing required field: id" ∧
    mapOpportunity witRawNoDate =
      .error "Missing required field: postedDate (checked openDate, postedDate, postDate, postedAt, createdAt) for id A" ∧
    ∃ o, mapOpportunity witRawBadClose = .ok o ∧
      o.postedDate = "2025-01-15T00:00:00.000Z" ∧ o.closeDate = none := by
  refine ⟨(mapOpportunity_required_fields {}).1 rfl, ?_, ?_⟩
  · exact (mapOpportunity_required_fields witRawNoDate).2.2.1
      (by decide) (by decide) rfl
  · obtain ⟨o, h1, h2, h3⟩ :=
      (mapOpportunity_required_fields witRawBadClose).2.2.2
        (by decide) (by decide) "2025-01-15T00:00:00.000Z" rfl
    exact ⟨o, h1, h2, h3.trans rfl⟩

/-! ### C7: the checkpoint discipline of `pull` -/

/-- The number of records `pull` diverts to the rejects channel: deduped
records whose map-and-validate attempt fails. -/
def pullRejectCount (raws : List Raw) : ℕ :=
  let mapped := (dedupeById raws []).map
    (fun r => (mapOpportunity r).bind zodValidateOpportunity)
  mapped.length - (mapped.filter (fun x => x.toOption.isSome)).length

theorem pullWrites_spec (fx : PullEffects) (sq nr : Bool) (res : PullResult) :
    (PullEvent.writeCheckpoint ∈ (pullWrites fx sq nr res).2 →
       (nr = true → fx.writeRejects = .ok ()) ∧
       fx.writeJson = .ok () ∧ fx.writeCsv = .ok () ∧
       (sq = true → fx.writeSqlite = .ok ()) ∧
       (pullWrites fx sq nr res).2.getLast? = some PullEvent.writeCheckpoint) ∧
    (∀ r, (pullWrites fx sq nr res).1 = .ok r →
       fx.writeCheckpoint = .ok () ∧
       PullEvent.writeCheckpoint ∈ (pullWrites fx sq nr res).2 ∧ r = res) ∧
    (∀ e, fx.writeCheckpoint = .error e →
       PullEvent.writeCheckpoint ∈ (pullWrites fx sq nr res).2 →
       (pullWrites fx sq nr res).1 = .error e) ∧
    (∀ e, (pullWrites fx sq nr res).1 = .error e →
       PullEvent.writeCheckpoint ∉ (pullWrites fx sq nr res).2 ∨
       fx.writeCheckpoint = .error e) := by
  obtain ⟨lc, rc, fa, wr, wj, wc, ws, wck⟩ := fx
  cases nr <;> cases sq <;>
    rcases wr with e1 | ⟨⟩ <;> rcases wj with e2 | ⟨⟩ <;>
    rcases wc with e3 | ⟨⟩ <;> rcases ws with e4 | ⟨⟩ <;>
    rcases wck with e5 | ⟨⟩ <;>
      simp [pullWrites, stepE, List.getLast?]

theorem pullWrites_wrap (fx : PullEffects) (sq nr : Bool) (res : PullResult)
    (evs : List PullEvent) (hevs : PullEvent.writeCheckpoint ∉ evs) :
    (PullEvent.writeCheckpoint ∈ evs ++ .fetchAll :: (pullWrites fx sq nr res).2 →
       (nr = true → fx.writeRejects = .ok ()) ∧
       fx.writeJson = .ok () ∧ fx.writeCsv = .ok () ∧
       (sq = true → fx.writeSqlite = .ok ()) ∧
       (evs ++ .fetchAll :: (pullWrites fx sq nr res).2).getLast? =
         some PullEvent.writeCheckpoint) ∧
    (∀ r, (pullWrites fx sq nr res).1 = .ok r →
       fx.writeCheckpoint = .ok () ∧
       PullEvent.writeCheckpoint ∈ evs ++ .fetchAll :: (pullWrites fx sq nr res).2) ∧
    (∀ e, fx.writeCheckpoint = .error e →
       PullEvent.writeCheckpoint ∈ evs ++ .fetchAll :: (pullWrites fx sq nr res).2 →
       (pullWrites fx sq nr res).1 = .error e) ∧
    (∀ e, (pullWrites fx sq nr res).1 = .error e →
       PullEvent.writeCheckpoint ∉ evs ++ .fetchAll :: (pullWrites fx sq nr res).2 ∨
       fx.writeCheckpoint = .error e) := by
  have hiff : PullEvent.writeCheckpoint ∈
        evs ++ PullEvent.fetchAll :: (pullWrites fx sq nr res).2 ↔
      PullEvent.writeCheckpoint ∈ (pullWrites fx sq nr res).2 := by
    simp [List.mem_append, List.mem_cons, hevs]
  obtain ⟨h1, h2, h3, h4⟩ := pullWrites_spec fx sq nr res
  refine ⟨fun hm => ?_, fun r hr => ?_,
    fun e he hm => h3 e he (hiff.mp hm), fun e he => ?_⟩
  · obtain ⟨a, b, c, d, hlast⟩ := h1 (hiff.mp hm)
    refine ⟨a, b, c, d, ?_⟩
    have hsplit : evs ++ PullEvent.fetchAll :: (pullWrites fx sq nr res).2
        = (evs ++ [PullEvent.fetchAll]) ++ (pullWrites fx sq nr res).2 := by simp
    rw [hsplit, List.getLast?_append, hlast]
    rfl
  · obtain ⟨hck, hm, _⟩ := h2 r hr
    exact ⟨hck, hiff.mpr hm⟩
  · rcases h4 e he with h | h
    · exact Or.inl (fun hm => h (hiff.mp hm))
    · exact Or.inr h

/-- C7: `pull` performs the checkpoint write only after config load,
fetching, mapping/validation and all configured output writes (rejects
when any record was rejected, JSON, CSV, SQLite when configured) completed
successfully, and the checkpoint write is its last effect; a successful
result implies the checkpoint write happened and succeeded; a failing
checkpoint write makes `pull` propagate that very error; and an error
result means either the checkpoint was never written or the error was the
checkpoint write's own. -/
theorem pull_checkpoint_discipline (fx : PullEffects) (opts : PullOptions) :
    (PullEvent.writeCheckpoint ∈ (pull fx opts).2 →
       fx.loadConfig = .ok () ∧
       (∃ raws, fx.fetchAllStep = .ok raws ∧
         (0 < pullRejectCount raws → fx.writeRejects = .ok ())) ∧
       fx.writeJson = .ok () ∧ fx.writeCsv = .ok () ∧
       (opts.sqlite = true → fx.writeSqlite = .ok ()) ∧
       (pull fx opts).2.getLast? = some PullEvent.writeCheckpoint) ∧
    (∀ r, (pull fx opts).1 = .ok r →
       fx.writeCheckpoint = .ok () ∧
       PullEvent.writeCheckpoint ∈ (pull fx opts).2) ∧
    (∀ e, fx.writeCheckpoint = .error e →
       PullEvent.writeCheckpoint ∈ (pull fx opts).2 →
       (pull fx opts).1 = .error e) ∧
    (∀ e, (pull fx opts).1 = .error e →
       PullEvent.writeCheckpoint ∉ (pull fx opts).2 ∨
       fx.writeCheckpoint = .error e) := by
  obtain ⟨lc, rc, fa, wr, wj, wc, ws, wck⟩ := fx
  obtain ⟨since, sqlite, pageSize⟩ := opts
  rcases lc with e0 | ⟨⟩
  · simp [pull]
  rcases since with _ | s
  · rcases rc with e0 | cp
    · simp [pull]
    rcases fa with e0 | raws
    · simp [pull]
    simp only [pull]
    refine ⟨fun hm => ?_, fun r hr => ?_, fun e he hm => ?_, fun e he => ?_⟩
    · obtain ⟨hrj, hjn, hcs, hsq, hlast⟩ :=
        (pullWrites_wrap _ _ _ _ [PullEvent.readCheckpoint] (by simp)).1 hm
      exact ⟨by trivial, ⟨raws, by trivial, fun h0 => hrj (decide_eq_true h0)⟩,
        hjn, hcs, hsq, hlast⟩
    · exact (pullWrites_wrap _ _ _ _ [PullEvent.readCheckpoint] (by simp)).2.1 r hr
    · exact (pullWrites_wrap _ _ _ _ [PullEvent.readCheckpoint] (by simp)).2.2.1 e he hm
    · exact (pullWrites_wrap _ _ _ _ [PullEvent.readCheckpoint] (by simp)).2.2.2 e he
  · rcases hts : toStartOfDayISO s with e0 | v
    · simp [pull, hts, Except.map]
    rcases fa with e0 | raws
    · simp [pull, hts, Except.map]
    simp only [pull, hts, Except.map]
    refine ⟨fun hm => ?_, fun r hr => ?_, fun e he hm => ?_, fun e he => ?_⟩
    · obtain ⟨hrj, hjn, hcs, hsq, hlast⟩ :=
        (pullWrites_wrap _ _ _ _ [] (by simp)).1 hm
      exact ⟨by trivial, ⟨raws, by trivial, fun h0 => hrj (decide_eq_true h0)⟩,
        hjn, hcs, hsq, hlast⟩
    · exact (pullWrites_wrap _ _ _ _ [] (by simp)).2.1 r hr
    · exact (pullWrites_wrap _ _ _ _ [] (by simp)).2.2.1 e he hm
    · exact (pullWrites_wrap _ _ _ _ [] (by simp)).2.2.2 e he

/-- An effects environment in which every external step succeeds, with an
empty upstream. -/
def fxAllOk : PullEffects :=
  { loadConfig := .ok (), readCheckpoint := .ok none, fetchAllStep := .ok [],
    writeRejects := .ok (), writeJson := .ok (), writeCsv := .ok (),
    writeSqlite := .ok (), writeCheckpoint := .ok () }

/-- Witness for C7: in the all-success environment the checkpoint write
happens, succeeds, and is the last effect of the run. -/
theorem pull_checkpoint_discipline_witness :
    fxAllOk.writeCheckpoint = .ok () ∧
    PullEvent.writeCheckpoint ∈ (pull fxAllOk {}).2 ∧
    (pull fxAllOk {}).2.getLast? = some PullEvent.writeCheckpoint := by
  have h := pull_checkpoint_discipline fxAllOk {}
  have hr : (pull fxAllOk {}).1 =
      .ok { totalFetched := 0, valid := 0, rejected := 0, pages := 0,
            durationMs := 0 } := rfl
  obtain ⟨hck, hmem⟩ := h.2.1 _ hr
  exact ⟨hck, hmem, (h.1 hmem).2.2.2.2.2⟩

end VoH
